import Mathlib

/-!
Verification development for the TraceMind log/stack-trace analysis core.

The C sources (src/parser.c, src/input_format.c, src/common.c, src/ast.c)
are shallowly embedded here.  Byte strings are modelled as `List Char`
(one `Char` per byte; all inputs of interest are ASCII).  C `NULL`
pointers for strings become `Option (List Char)`; out-of-bounds reads of
NUL-terminated buffers are modelled by `charAt`, which yields the NUL
character for indices past the end of the list, matching the fact that
every buffer handed to these functions is NUL-terminated at its length.

POSIX `regexec` semantics (leftmost match, `REG_NEWLINE` line anchoring)
are modelled by explicit scanning functions, one per regex appearing in
the source; each is documented next to its definition.
-/

namespace TraceMind

/-- Character used to model reads of the NUL terminator / out-of-range reads. -/
def nulChar : Char := Char.ofNat 0

/-- Left brace character (written numerically to keep string literals brace-free). -/
def lbrace : Char := Char.ofNat 123

/-- Right brace character. -/
def rbrace : Char := Char.ofNat 125

/-- Convenience: view a Lean string literal as the byte list it denotes. -/
def cs (s : String) : List Char := s.data

/-- Read of `s[i]` on a NUL-terminated C buffer: past the end we see NUL. -/
def charAt (s : List Char) (i : Nat) : Char := s.getD i nulChar

/-- C `isspace` in the POSIX locale: space, \t, \n, \v, \f, \r. -/
def isPosixSpace (c : Char) : Bool :=
  c = ' ' || c = '\t' || c = '\n' || c = '\x0b' || c = '\x0c' || c = '\r'

/-- ASCII digit test (C `isdigit`). -/
def isDigitC (c : Char) : Bool := '0' ≤ c && c ≤ '9'

/-- ASCII letter test (C `isalpha`). -/
def isAlphaC (c : Char) : Bool := ('a' ≤ c && c ≤ 'z') || ('A' ≤ c && c ≤ 'Z')

/-- Word character of the Python error regex: `[A-Za-z0-9_]`. -/
def isWordC (c : Char) : Bool := isAlphaC c || isDigitC c || c = '_'

/-- ASCII lower-casing of one byte, exactly as `tm_strcasestr` does it
(`c + 32` when `'A' <= c <= 'Z'`). -/
def lowerByte (c : Char) : Char :=
  if 'A' ≤ c && c ≤ 'Z' then Char.ofNat (c.toNat + 32) else c

/-- Value of a decimal digit list (models `atoi` on a captured digit run;
the captures in this code are always plain digit strings). -/
def atoiDigits (ds : List Char) : Nat :=
  ds.foldl (fun acc c => acc * 10 + (c.toNat - '0'.toNat)) 0

/-- Index of the first occurrence of `pat` in `hay` (C `strstr`), if any. -/
def findSub (hay pat : List Char) : Option Nat :=
  if pat.isPrefixOf hay then some 0
  else match hay with
    | [] => none
    | _ :: t => (findSub t pat).map (· + 1)

/-- C `strstr(hay, pat) != NULL`. -/
def strstrB (hay pat : List Char) : Bool := (findSub hay pat).isSome

/-- Case-insensitive prefix test used by `tm_strcasestr`. -/
def isPrefixCI : List Char → List Char → Bool
  | [], _ => true
  | _ :: _, [] => false
  | p :: ps, h :: hs => lowerByte h = lowerByte p && isPrefixCI ps hs

/-- Embedding of `tm_strcasestr` (common.h): index of the first
case-insensitive occurrence of `pat` in `hay`. -/
def tm_strcasestr (hay pat : List Char) : Option Nat :=
  if isPrefixCI pat hay then some 0
  else match hay with
    | [] => none
    | _ :: t => (tm_strcasestr t pat).map (· + 1)

/-- C `tm_strcasestr(hay, pat) != NULL`. -/
def strcasestrB (hay pat : List Char) : Bool := (tm_strcasestr hay pat).isSome

/-- C `strcasecmp(a, b) == 0` (ASCII case-insensitive equality). -/
def strcasecmpEq (a b : List Char) : Bool :=
  a.map lowerByte = b.map lowerByte

/-- C `strncasecmp(a, b, n) == 0` where `a` is read from a NUL-terminated
buffer: compares `n` bytes case-insensitively, NUL-padding past the end. -/
def strncasecmpEq (s : List Char) (i : Nat) (pat : List Char) : Bool :=
  (List.range pat.length).all fun k =>
    lowerByte (charAt s (i + k)) = lowerByte (charAt pat k)

/-- Index of the last occurrence of `c` in `s` (C `strrchr`). -/
def strrchrIdx (s : List Char) (c : Char) : Option Nat :=
  (List.range s.length).filter (fun i => charAt s i = c) |>.getLast?

/-- First line of a suffix of the buffer: bytes up to (not including) the
first newline. -/
def lineOf (s : List Char) : List Char := s.takeWhile (· ≠ '\n')

/-- Suffix of `s` remaining after its first line and that line's newline
(empty when the first line is the last). -/
def afterLine (s : List Char) : List Char := s.drop ((lineOf s).length + 1)

/-- C `tm_str_ends_with` / suffix tests on byte lists. -/
def endsWithL (s p : List Char) : Bool := p.isSuffixOf s

theorem takeWhile_len_le (p : Char → Bool) (l : List Char) :
    (l.takeWhile p).length ≤ l.length := by
  induction l with
  | nil => simp
  | cons a t ih =>
      by_cases h : p a
      · simp only [List.takeWhile, h]; simpa using Nat.succ_le_succ ih
      · simp [List.takeWhile, h]

theorem afterLine_length_lt (s : List Char) (h : s ≠ []) :
    (afterLine s).length < s.length := by
  have : (afterLine s).length ≤ s.length - ((lineOf s).length + 1) := by
    simp [afterLine]
  have hpos : 0 < s.length := List.length_pos.2 h
  omega

/-- Enumerations mirroring `tm_language_t` (tracemind.h). -/
inductive tm_language where
  | unknown | python | go | nodejs | java | rust | cpp
deriving DecidableEq, Repr

/-- Enumeration mirroring `tm_error_t`. -/
inductive tm_error where
  | ok | nomem | invalid_arg | io | parse | git | llm | timeout
  | not_found | unsupported | internal
deriving DecidableEq, Repr

/-- Embedding of `tm_is_stdlib_path` (common.c). -/
def tm_is_stdlib_path (path : List Char) (lang : tm_language) : Bool :=
  match lang with
  | .python =>
      strstrB path (cs "/lib/python") &&
      !(strstrB path (cs "/site-packages/")) &&
      !(strstrB path (cs "/dist-packages/"))
  | .go =>
      (cs "/usr/local/go/src/").isPrefixOf path || strstrB path (cs "GOROOT")
  | .nodejs =>
      strstrB path (cs "internal/") || (cs "node:").isPrefixOf path
  | _ => false

/-- Embedding of `tm_is_third_party_path` (common.c). -/
def tm_is_third_party_path (path : List Char) (lang : tm_language) : Bool :=
  match lang with
  | .python =>
      strstrB path (cs "/site-packages/") || strstrB path (cs "/dist-packages/")
  | .go =>
      strstrB path (cs "/pkg/mod/") || strstrB path (cs "vendor/")
  | .nodejs => strstrB path (cs "/node_modules/")
  | _ => false

/-- Extension table of `tm_detect_language` (common.c `ext_map`), checked
in order with `strcasecmp`. -/
def extMap : List (List Char × tm_language) :=
  [(cs ".py", .python), (cs ".pyw", .python), (cs ".go", .go),
   (cs ".js", .nodejs), (cs ".mjs", .nodejs), (cs ".cjs", .nodejs),
   (cs ".ts", .nodejs), (cs ".tsx", .nodejs), (cs ".jsx", .nodejs)]

/-- Embedding of `tm_detect_language` (common.c): ordered heuristic
checks — Python signatures, then Go, then Node.js, then a file-extension
fallback on the suffix after the last dot. -/
def tm_detect_language (input : List Char) : tm_language :=
  if strstrB input (cs "Traceback (most recent call last)") ||
     strstrB input (cs "File \"") ||
     strstrB input (cs ".py\", line") then .python
  else if strstrB input (cs "panic:") ||
          strstrB input (cs "goroutine ") ||
          strstrB input (cs ".go:") then .go
  else if strstrB input (cs "at ") &&
          (strstrB input (cs ".js:") || strstrB input (cs ".ts:") ||
           strstrB input (cs "Error:") || strstrB input (cs "TypeError:")) then .nodejs
  else
    match strrchrIdx input '.' with
    | none => .unknown
    | some i =>
        let ext := input.drop i
        match extMap.find? (fun p => strcasecmpEq ext p.1) with
        | some p => p.2
        | none => .unknown

/-! Stack frame / stack trace data model (tracemind.h, parser.c). -/

/-- Embedding of `tm_stack_frame_t`. -/
structure tm_stack_frame where
  function : Option (List Char)
  file : Option (List Char)
  line : Nat
  column : Nat
  is_stdlib : Bool
  is_third_party : Bool
deriving DecidableEq, Repr

/-- Embedding of `tm_stack_trace_t` (`frame_count` is `frames.length`). -/
structure tm_stack_trace where
  language : tm_language
  error_type : Option (List Char)
  error_message : Option (List Char)
  frames : List tm_stack_frame
  raw_trace : Option (List Char)
deriving DecidableEq, Repr

/-! Python parser (`tm_parse_python_trace`).

Frame regex: `File "([^"]+)", line ([0-9]+)(, in ([^[:space:]]+))?`,
compiled without `REG_NEWLINE` and unanchored; the scan loop repeatedly
takes the leftmost match of the remaining text and advances past it.

Error regex: `^([A-Za-z][A-Za-z0-9_]*(Error|Exception|Warning)): (.*)$`
with `REG_NEWLINE`, so a match starts only at a line start; the loop
keeps overwriting with every further match (last occurrence wins). -/

/-- Match attempt of the Python frame regex at one candidate position
(the position must carry the literal prefix).  Returns
`(file, line digits, optional function, match length)`. -/
def pyFrameTryAt (s : List Char) : Option (List Char × List Char × Option (List Char) × Nat) :=
  if (cs "File \"").isPrefixOf s then
    let r1 := s.drop 6
    let file := r1.takeWhile (· ≠ '"')
    if file.isEmpty then none else
    let r2 := r1.drop file.length
    if (cs "\", line ").isPrefixOf r2 then
      let r3 := r2.drop 8
      let ds := r3.takeWhile isDigitC
      if ds.isEmpty then none else
      let r4 := r3.drop ds.length
      let base := 6 + file.length + 8 + ds.length
      if (cs ", in ").isPrefixOf r4 then
        let fn := (r4.drop 5).takeWhile (fun c => !(isPosixSpace c))
        if fn.isEmpty then some (file, ds, none, base)
        else some (file, ds, some fn, base + 5 + fn.length)
      else some (file, ds, none, base)
    else none
  else none

/-- Leftmost match of the Python frame regex: result plus the offset of
the match end from the start of `s` (`rm_eo`, the amount the scan loop
advances the cursor by). -/
def findPyFrame : List Char → Option (List Char × List Char × Option (List Char) × Nat)
  | [] => none
  | s@(_ :: t) =>
      match pyFrameTryAt s with
      | some r => some r
      | none => (findPyFrame t).map (fun (f, d, fn, n) => (f, d, fn, n + 1))

/-- Frame-extraction loop of `tm_parse_python_trace`.  `fuel` bounds the
iteration count; every iteration that continues consumes at least one
byte, so `s.length + 1` is always enough fuel. -/
def pyFrameLoop (fuel : Nat) (s : List Char) (acc : List tm_stack_frame) : List tm_stack_frame :=
  match fuel with
  | 0 => acc
  | fuel + 1 =>
      match findPyFrame s with
      | none => acc
      | some (file, ds, fn, n) =>
          let f : tm_stack_frame :=
            { function := some (fn.getD (cs "<module>"))
              file := some file
              line := atoiDigits ds
              column := 0
              is_stdlib := tm_is_stdlib_path file .python
              is_third_party := tm_is_third_party_path file .python }
          pyFrameLoop fuel (s.drop n) (acc ++ [f])

/-- Match of the Python error regex against one input line. -/
def pyErrLineMatch (line : List Char) : Option (List Char × List Char) :=
  let w := line.takeWhile isWordC
  if w.isEmpty then none
  else if !(isAlphaC (charAt w 0)) then none
  else if !((endsWithL w (cs "Error") && 5 < w.length) ||
            (endsWithL w (cs "Exception") && 9 < w.length) ||
            (endsWithL w (cs "Warning") && 7 < w.length)) then none
  else if (cs ": ").isPrefixOf (line.drop w.length) then
    some (w, line.drop (w.length + 2))
  else none

theorem pyErrLineMatch_ne_nil (line : List Char) (p : List Char × List Char)
    (h : pyErrLineMatch line = some p) : line ≠ [] := by
  intro hl
  subst hl
  simp [pyErrLineMatch, List.takeWhile] at h

/-- Leftmost match of the Python error regex over the remaining text:
error type, message, and the number of bytes from the start of `s` to
the match end (`rm_eo`).  `fuel` bounds the line recursion; one unit per
line, so `s.length + 1` always suffices. -/
def findPyErr (fuel : Nat) (s : List Char) : Option (List Char × List Char × Nat) :=
  match fuel with
  | 0 => none
  | fuel + 1 =>
      if s.isEmpty then none
      else
        match pyErrLineMatch (lineOf s) with
        | some (ty, msg) => some (ty, msg, (lineOf s).length)
        | none =>
            (findPyErr fuel (afterLine s)).map
              (fun r => (r.1, r.2.1, (lineOf s).length + 1 + r.2.2))

/-- Error-scan loop of `tm_parse_python_trace`: keeps the latest match.
One unit of fuel per match found; every match consumes at least one byte
of the cursor, so `s.length + 1` always suffices. -/
def pyErrScan (fuel : Nat) (s : List Char) (acc : Option (List Char × List Char)) :
    Option (List Char × List Char) :=
  match fuel with
  | 0 => acc
  | fuel + 1 =>
      match findPyErr (s.length + 1) s with
      | none => acc
      | some (ty, msg, n) => pyErrScan fuel (s.drop n) (some (ty, msg))

/-- List of all Python error-regex matches, in the scan order of
`pyErrScan` (used to state the first-versus-last match policy). -/
def pyErrList (fuel : Nat) (s : List Char) : List (List Char × List Char) :=
  match fuel with
  | 0 => []
  | fuel + 1 =>
      match findPyErr (s.length + 1) s with
      | none => []
      | some (ty, msg, n) => (ty, msg) :: pyErrList fuel (s.drop n)

/-- Embedding of `tm_parse_python_trace` (parser.c): returns the C error
code together with the populated trace object. -/
def tm_parse_python_trace (input : List Char) : tm_error × tm_stack_trace :=
  let frames := pyFrameLoop (input.length + 1) input []
  let errPair := pyErrScan (input.length + 1) input none
  let trace : tm_stack_trace :=
    { language := .python
      error_type := errPair.map (·.1)
      error_message := errPair.map (·.2)
      frames := frames
      raw_trace := some input }
  (if frames.isEmpty then .parse else .ok, trace)

/-! Go parser (`tm_parse_go_trace`).

Three regexes, all compiled with `REG_NEWLINE` so `^` anchors at line
starts and non-matching bracket lists do not cross newlines:
function `^([^[:space:](]+)\(`, location `^[[:space:]]+([^:]+\.go):([0-9]+)`
(whose leading whitespace run, being a matching list, may consume
newlines), and header `^(panic|Error|error): (.*)$`.

The C loop advances one line at a time but re-runs `regexec` on the whole
remaining text each iteration, so a match on a later line is found from
every earlier line position as well. -/

/-- Match of the Go function regex against one line. -/
def goFuncLineMatch (line : List Char) : Option (List Char) :=
  let run := line.takeWhile (fun c => !(isPosixSpace c) && c ≠ '(')
  if !run.isEmpty && charAt line run.length = '(' then some run else none

/-- Leftmost match of the Go function regex in the remaining text
(fuelled line recursion; `s.length + 1` always suffices). -/
def findGoFunc (fuel : Nat) (s : List Char) : Option (List Char) :=
  match fuel with
  | 0 => none
  | fuel + 1 =>
      if s.isEmpty then none
      else
        match goFuncLineMatch (lineOf s) with
        | some f => some f
        | none => findGoFunc fuel (afterLine s)

/-- Match attempt of the Go location regex at one `^` position; the
whitespace run may cross newlines, the `[^:]+\.go` group may not.
When the segment before the first colon is shorter than the 4 bytes the
group needs, POSIX backtracks the whitespace run minimally (the borrowed
bytes must themselves not be newlines).  Returns `(file, line digits)`. -/
def goLocTryAt (s : List Char) : Option (List Char × List Char) :=
  let ws := s.takeWhile isPosixSpace
  if ws.isEmpty then none else
  let rest := s.drop ws.length
  let seg := rest.takeWhile (fun c => c ≠ ':' && c ≠ '\n')
  if charAt rest seg.length = ':' && endsWithL seg (cs ".go") then
    let ds := (rest.drop (seg.length + 1)).takeWhile isDigitC
    if ds.isEmpty then none
    else if 4 ≤ seg.length then some (seg, ds)
    else
      let deficit := 4 - seg.length
      if deficit + 1 ≤ ws.length && (ws.drop (ws.length - deficit)).all (· ≠ '\n') then
        some ((ws.drop (ws.length - deficit)) ++ seg, ds)
      else none
  else none

/-- Leftmost match of the Go location regex in the remaining text. -/
def findGoLoc (fuel : Nat) (s : List Char) : Option (List Char × List Char) :=
  match fuel with
  | 0 => none
  | fuel + 1 =>
      if s.isEmpty then none
      else
        match goLocTryAt s with
        | some r => some r
        | none => findGoLoc fuel (afterLine s)

/-- Match of the Go panic/error header regex against one line. -/
def goPanicLineMatch (line : List Char) : Option (List Char × List Char) :=
  if (cs "panic: ").isPrefixOf line then some (cs "panic", line.drop 7)
  else if (cs "Error: ").isPrefixOf line then some (cs "Error", line.drop 7)
  else if (cs "error: ").isPrefixOf line then some (cs "error", line.drop 7)
  else none

/-- First match of the Go header regex in the text (the parser runs a
single `regexec`, so only this first occurrence is ever used). -/
def findGoPanic (fuel : Nat) (s : List Char) : Option (List Char × List Char) :=
  match fuel with
  | 0 => none
  | fuel + 1 =>
      if s.isEmpty then none
      else
        match goPanicLineMatch (lineOf s) with
        | some r => some r
        | none => findGoPanic fuel (afterLine s)

/-- List of all Go header-regex matches in line order (used only to
state the first-match policy). -/
def goPanicList (fuel : Nat) (s : List Char) : List (List Char × List Char) :=
  match fuel with
  | 0 => []
  | fuel + 1 =>
      if s.isEmpty then []
      else
        match goPanicLineMatch (lineOf s) with
        | some r => r :: goPanicList fuel (afterLine s)
        | none => goPanicList fuel (afterLine s)

/-- Construction of one Go stack frame (`tm_frame_new` plus the
stdlib/third-party classification done at the call site). -/
def mkGoFrame (fn file ds : List Char) : tm_stack_frame :=
  { function := some fn
    file := some file
    line := atoiDigits ds
    column := 0
    is_stdlib := tm_is_stdlib_path file .go
    is_third_party := tm_is_third_party_path file .go }

/-- Frame loop of `tm_parse_go_trace`: per line, run both regexes over
the whole remaining text, update the pending function, emit a frame when
a location matched with a function pending, then advance one line. -/
def goFrameLoop (fuel : Nat) (s : List Char) (pend : Option (List Char))
    (acc : List tm_stack_frame) : List tm_stack_frame :=
  match fuel with
  | 0 => acc
  | fuel + 1 =>
      if s.isEmpty then acc
      else
        let pend' := match findGoFunc (s.length + 1) s with
          | some f => some f
          | none => pend
        let step : Option (List Char) × List tm_stack_frame :=
          match findGoLoc (s.length + 1) s, pend' with
          | some (file, ds), some fn => (none, acc ++ [mkGoFrame fn file ds])
          | _, _ => (pend', acc)
        if '\n' ∈ s then goFrameLoop fuel (afterLine s) step.1 step.2 else step.2

/-- Embedding of `tm_parse_go_trace` (parser.c). -/
def tm_parse_go_trace (input : List Char) : tm_error × tm_stack_trace :=
  let errPair := findGoPanic (input.length + 1) input
  let frames := goFrameLoop (input.length + 1) input none []
  let trace : tm_stack_trace :=
    { language := .go
      error_type := errPair.map (·.1)
      error_message := errPair.map (·.2)
      frames := frames
      raw_trace := some input }
  (if frames.isEmpty then .parse else .ok, trace)

/-! Node.js parser (`tm_parse_nodejs_trace`).

Frame regexes (no `REG_NEWLINE`, unanchored):
full `at ([^ ]+) \(([^:]+):([0-9]+):([0-9]+)\)` and
bare `at ([^:]+):([0-9]+):([0-9]+)`.
Error regex (`REG_NEWLINE`): `^([A-Za-z]+Error|[A-Za-z]+Exception): (.*)$`. -/

/-- Match attempt of the full Node frame regex at one candidate position.
Returns `(function, file, line digits, column digits, match length)`. -/
def nodeFrameTryAt (s : List Char) : Option (List Char × List Char × List Char × List Char × Nat) :=
  if (cs "at ").isPrefixOf s then
    let g1 := (s.drop 3).takeWhile (· ≠ ' ')
    if g1.isEmpty then none else
    let r2 := s.drop (3 + g1.length)
    if (cs " (").isPrefixOf r2 then
      let g2 := (r2.drop 2).takeWhile (· ≠ ':')
      if g2.isEmpty then none else
      let r3 := r2.drop (2 + g2.length)
      if charAt r3 0 = ':' then
        let d1 := (r3.drop 1).takeWhile isDigitC
        if d1.isEmpty then none else
        let r4 := r3.drop (1 + d1.length)
        if charAt r4 0 = ':' then
          let d2 := (r4.drop 1).takeWhile isDigitC
          if d2.isEmpty then none else
          if charAt r4 (1 + d2.length) = ')' then
            some (g1, g2, d1, d2,
              3 + g1.length + 2 + g2.length + 1 + d1.length + 1 + d2.length + 1)
          else none
        else none
      else none
    else none
  else none

/-- Leftmost match of the full Node frame regex; the final component is
`rm_eo`, the offset of the match end from the start of `s`. -/
def findNodeFrame : List Char → Option (List Char × List Char × List Char × List Char × Nat)
  | [] => none
  | s@(_ :: t) =>
      match nodeFrameTryAt s with
      | some r => some r
      | none => (findNodeFrame t).map (fun (a, b, c, d, n) => (a, b, c, d, n + 1))

/-- Match attempt of the bare Node frame regex at one candidate position.
Returns `(file, line digits, column digits, match length)`. -/
def nodeBareTryAt (s : List Char) : Option (List Char × List Char × List Char × Nat) :=
  if (cs "at ").isPrefixOf s then
    let g1 := (s.drop 3).takeWhile (· ≠ ':')
    if g1.isEmpty then none else
    let r2 := s.drop (3 + g1.length)
    if charAt r2 0 = ':' then
      let d1 := (r2.drop 1).takeWhile isDigitC
      if d1.isEmpty then none else
      let r3 := r2.drop (1 + d1.length)
      if charAt r3 0 = ':' then
        let d2 := (r3.drop 1).takeWhile isDigitC
        if d2.isEmpty then none else
        some (g1, d1, d2, 3 + g1.length + 1 + d1.length + 1 + d2.length)
      else none
    else none
  else none

/-- Leftmost match of the bare Node frame regex; returns the captures,
the match start offset `rm_so` and the match end offset `rm_eo`. -/
def findNodeBare : List Char → Option (List Char × List Char × List Char × Nat × Nat)
  | [] => none
  | s@(_ :: t) =>
      match nodeBareTryAt s with
      | some (f, d1, d2, len) => some (f, d1, d2, 0, len)
      | none => (findNodeBare t).map (fun (f, d1, d2, so, eo) => (f, d1, d2, so + 1, eo + 1))

/-- Construction of one Node.js stack frame. -/
def mkNodeFrame (fn file d1 d2 : List Char) : tm_stack_frame :=
  { function := some fn
    file := some file
    line := atoiDigits d1
    column := atoiDigits d2
    is_stdlib := tm_is_stdlib_path file .nodejs
    is_third_party := tm_is_third_party_path file .nodejs }

/-- Frame loop of `tm_parse_nodejs_trace` (fuelled; one byte of fuel per
iteration suffices since every iteration advances the cursor).  The bare
branch re-checks `strstr(cursor + rm_so - 5, "at ")`, which can never be
NULL because the matched text itself begins with `at ` (the pointer
arithmetic is clamped at the buffer start here, where the C code would
read out of bounds for `rm_so < 5`). -/
def nodeFrameLoop (fuel : Nat) (s : List Char) (acc : List tm_stack_frame) : List tm_stack_frame :=
  match fuel with
  | 0 => acc
  | fuel + 1 =>
      if s.isEmpty then acc
      else
        match findNodeFrame s with
        | some (fn, file, d1, d2, eo) =>
            nodeFrameLoop fuel (s.drop eo) (acc ++ [mkNodeFrame fn file d1 d2])
        | none =>
            match findNodeBare s with
            | some (file, d1, d2, so, eo) =>
                if strstrB (s.drop (so - 5)) (cs "at ") then
                  nodeFrameLoop fuel (s.drop eo)
                    (acc ++ [mkNodeFrame (cs "<anonymous>") file d1 d2])
                else nodeFrameLoop fuel (s.drop 1) acc
            | none => nodeFrameLoop fuel (s.drop 1) acc

/-- Match of the Node error regex against one line. -/
def nodeErrLineMatch (line : List Char) : Option (List Char × List Char) :=
  let w := line.takeWhile isAlphaC
  if w.isEmpty then none
  else if !((endsWithL w (cs "Error") && 5 < w.length) ||
            (endsWithL w (cs "Exception") && 9 < w.length)) then none
  else if (cs ": ").isPrefixOf (line.drop w.length) then
    some (w, line.drop (w.length + 2))
  else none

/-- First match of the Node error regex in the text. -/
def findNodeErr (fuel : Nat) (s : List Char) : Option (List Char × List Char) :=
  match fuel with
  | 0 => none
  | fuel + 1 =>
      if s.isEmpty then none
      else
        match nodeErrLineMatch (lineOf s) with
        | some r => some r
        | none => findNodeErr fuel (afterLine s)

/-- List of all Node error-regex matches in line order. -/
def nodeErrList (fuel : Nat) (s : List Char) : List (List Char × List Char) :=
  match fuel with
  | 0 => []
  | fuel + 1 =>
      if s.isEmpty then []
      else
        match nodeErrLineMatch (lineOf s) with
        | some r => r :: nodeErrList fuel (afterLine s)
        | none => nodeErrList fuel (afterLine s)

/-- Embedding of `tm_parse_nodejs_trace` (parser.c). -/
def tm_parse_nodejs_trace (input : List Char) : tm_error × tm_stack_trace :=
  let errPair := findNodeErr (input.length + 1) input
  let frames := nodeFrameLoop (input.length + 1) input []
  let trace : tm_stack_trace :=
    { language := .nodejs
      error_type := errPair.map (·.1)
      error_message := errPair.map (·.2)
      frames := frames
      raw_trace := some input }
  (if frames.isEmpty then .parse else .ok, trace)

/-! Parser registry and main entry point (parser.c). -/

/-- Embedding of the parser-registry lookup in parser.c (suffix `Fn`
added to the source name). -/
def tm_get_parserFn (lang : tm_language) :
    Option (List Char → tm_error × tm_stack_trace) :=
  match lang with
  | .python => some tm_parse_python_trace
  | .go => some tm_parse_go_trace
  | .nodejs => some tm_parse_nodejs_trace
  | _ => none

/-- Embedding of `tm_parse_trace` (parser.c): auto-detect language when
the hint is unknown, dispatch, and surface the parser's error code. -/
def tm_parse_trace (input : List Char) (hint : tm_language) :
    tm_error × Option tm_stack_trace :=
  let lang := if hint = .unknown then tm_detect_language input else hint
  if lang = .unknown then (.unsupported, none)
  else
    match tm_get_parserFn lang with
    | none => (.unsupported, none)
    | some p =>
        let (err, trace) := p input
        if err = .ok then (.ok, some trace) else (err, none)

/-- Embedding of `tm_parse_stack_trace` (parser.c): the public wrapper;
`none` as input models a NULL pointer, and a NULL or zero-length input
yields NULL. -/
def tm_parse_stack_trace : Option (List Char) → Option tm_stack_trace
  | none => none
  | some input =>
      if input.isEmpty then none
      else
        match tm_parse_trace input .unknown with
        | (.ok, some t) => some t
        | _ => none

/-! Model of the jansson JSON library as used by input_format.c.

Modelled from the spec: jansson is an external dependency (not part of
this repository's sources).  `json_loadb(buf, len, 0, &err)` parses one
complete JSON document whose top level must be an array or an object,
rejecting trailing garbage; objects keep insertion order with later
duplicate keys replacing earlier ones in place; `json_dumps(v,
JSON_COMPACT)` serialises without whitespace.  Numbers are kept as their
raw source token, which is faithful for every use in this development
(no theorem inspects a numeric value other than integer
`sourceLocation.line` fields). -/

/-- JSON value. -/
inductive jval where
  | jnull
  | jbool (b : Bool)
  | jint (n : Int)
  | jreal (raw : List Char)
  | jstr (s : List Char)
  | jarr (xs : List jval)
  | jobj (fields : List (List Char × jval))

/-- Lookup of an object member (`json_object_get`); keys are unique
after parsing, so the first binding is the binding. -/
def json_object_get : jval → List Char → Option jval
  | .jobj fields, k => (fields.find? (fun p => p.1 = k)).map (·.2)
  | _, _ => none

/-- C `json_is_object`. -/
def json_is_object : jval → Bool
  | .jobj _ => true
  | _ => false

/-- C `json_is_array`. -/
def json_is_array : jval → Bool
  | .jarr _ => true
  | _ => false

/-- C `json_is_string`. -/
def json_is_string : jval → Bool
  | .jstr _ => true
  | _ => false

/-- C `json_is_integer`. -/
def json_is_integer : jval → Bool
  | .jint _ => true
  | _ => false

/-- String payload of a JSON string (`json_string_value`). -/
def json_string_value : jval → Option (List Char)
  | .jstr s => some s
  | _ => none

/-- JSON whitespace (jansson lexer). -/
def jsonSkipWs (s : List Char) : List Char :=
  s.dropWhile (fun c => c = ' ' || c = '\t' || c = '\n' || c = '\r')

/-- Value of one hex digit. -/
def hexVal (c : Char) : Option Nat :=
  let n := c.toNat
  if 48 ≤ n ∧ n ≤ 57 then some (n - 48)
  else if 97 ≤ n ∧ n ≤ 102 then some (n - 87)
  else if 65 ≤ n ∧ n ≤ 70 then some (n - 55)
  else none

/-- Value of a 4-digit hex escape read at the front of `s`. -/
def hex4 (s : List Char) : Option Nat := do
  let a ← hexVal (charAt s 0)
  let b ← hexVal (charAt s 1)
  let c ← hexVal (charAt s 2)
  let d ← hexVal (charAt s 3)
  pure (((a * 16 + b) * 16 + c) * 16 + d)

/-- Body of a JSON string after the opening quote: unescapes and returns
the decoded text plus the input after the closing quote. -/
def jsonParseStringBody (fuel : Nat) (s : List Char) (acc : List Char) :
    Option (List Char × List Char) :=
  match fuel with
  | 0 => none
  | fuel + 1 =>
      match s with
      | [] => none
      | '"' :: r => some (acc, r)
      | '\\' :: e :: r =>
          match e with
          | '"' => jsonParseStringBody fuel r (acc ++ ['"'])
          | '\\' => jsonParseStringBody fuel r (acc ++ ['\\'])
          | '/' => jsonParseStringBody fuel r (acc ++ ['/'])
          | 'b' => jsonParseStringBody fuel r (acc ++ ['\x08'])
          | 'f' => jsonParseStringBody fuel r (acc ++ ['\x0c'])
          | 'n' => jsonParseStringBody fuel r (acc ++ ['\n'])
          | 'r' => jsonParseStringBody fuel r (acc ++ ['\r'])
          | 't' => jsonParseStringBody fuel r (acc ++ ['\t'])
          | 'u' =>
              match hex4 r with
              | none => none
              | some n =>
                  if 0xd800 ≤ n && n ≤ 0xdbff then
                    if charAt r 4 = '\\' && charAt r 5 = 'u' then
                      match hex4 (r.drop 6) with
                      | none => none
                      | some m =>
                          if 0xdc00 ≤ m && m ≤ 0xdfff then
                            let cp := 0x10000 + (n - 0xd800) * 0x400 + (m - 0xdc00)
                            jsonParseStringBody fuel (r.drop 10) (acc ++ [Char.ofNat cp])
                          else none
                    else none
                  else if 0xdc00 ≤ n && n ≤ 0xdfff then none
                  else jsonParseStringBody fuel (r.drop 4) (acc ++ [Char.ofNat n])
          | _ => none
      | c :: r =>
          if c.toNat < 0x20 then none
          else jsonParseStringBody fuel r (acc ++ [c])

/-- JSON number token at the front of `s` (JSON grammar): returns the raw
token and the rest. -/
def jsonParseNumber (s : List Char) : Option (List Char × List Char) :=
  let (sign, r1) := if charAt s 0 = '-' then ([('-' : Char)], s.drop 1) else ([], s)
  let intPart : Option (List Char × List Char) :=
    match r1 with
    | '0' :: r => some (['0'], r)
    | c :: _ =>
        if '1' ≤ c && c ≤ '9' then
          let ds := r1.takeWhile isDigitC
          some (ds, r1.drop ds.length)
        else none
    | [] => none
  match intPart with
  | none => none
  | some (ip, r2) =>
      let (fp, r3) :=
        if charAt r2 0 = '.' then
          let ds := (r2.drop 1).takeWhile isDigitC
          if ds.isEmpty then ([], r2) else (['.'] ++ ds, r2.drop (1 + ds.length))
        else ([], r2)
      let fracOk := charAt r2 0 ≠ '.' || !fp.isEmpty
      let (ep, r4) :=
        if charAt r3 0 = 'e' || charAt r3 0 = 'E' then
          let signLen := if charAt r3 1 = '+' || charAt r3 1 = '-' then 1 else 0
          let ds := (r3.drop (1 + signLen)).takeWhile isDigitC
          if ds.isEmpty then ([], r3)
          else (r3.take (1 + signLen) ++ ds, r3.drop (1 + signLen + ds.length))
        else ([], r3)
      let expOk := (charAt r3 0 ≠ 'e' && charAt r3 0 ≠ 'E') || !ep.isEmpty
      if fracOk && expOk then some (sign ++ ip ++ fp ++ ep, r4) else none

/-- Numeric interpretation of a digit token (used for integer values). -/
def jsonTokenToInt (tok : List Char) : Int :=
  if charAt tok 0 = '-' then -(atoiDigits (tok.drop 1) : Int)
  else (atoiDigits tok : Int)

/-- Object-member insertion with jansson `json_object_set` semantics:
a duplicate key replaces the old value in place. -/
def jsonObjSet (fields : List (List Char × jval)) (k : List Char) (v : jval) :
    List (List Char × jval) :=
  if fields.any (fun p => p.1 = k) then
    fields.map (fun p => if p.1 = k then (k, v) else p)
  else fields ++ [(k, v)]

mutual

/-- Recursive-descent JSON value parser (fuelled; jansson's own parser
is recursive with a depth limit far above anything in scope here). -/
def jsonParseVal (fuel : Nat) (s : List Char) : Option (jval × List Char) :=
  match fuel with
  | 0 => none
  | fuel + 1 =>
      let s := jsonSkipWs s
      match s with
      | [] => none
      | c :: r =>
          if c = '"' then
            (jsonParseStringBody (r.length + 1) r []).map (fun (t, rest) => (.jstr t, rest))
          else if c = '[' then jsonParseArrItems fuel r true []
          else if c = lbrace then jsonParseObjItems fuel r true []
          else if c = 't' then
            if (cs "true").isPrefixOf s then some (.jbool true, s.drop 4) else none
          else if c = 'f' then
            if (cs "false").isPrefixOf s then some (.jbool false, s.drop 5) else none
          else if c = 'n' then
            if (cs "null").isPrefixOf s then some (.jnull, s.drop 4) else none
          else
            match jsonParseNumber s with
            | none => none
            | some (tok, rest) =>
                if tok.any (fun ch => ch = '.' || ch = 'e' || ch = 'E') then
                  some (.jreal tok, rest)
                else some (.jint (jsonTokenToInt tok), rest)

/-- Array items after `[`; `first` is true before any item was read. -/
def jsonParseArrItems (fuel : Nat) (s : List Char) (first : Bool) (acc : List jval) :
    Option (jval × List Char) :=
  match fuel with
  | 0 => none
  | fuel + 1 =>
      let s' := jsonSkipWs s
      if first && charAt s' 0 = ']' then some (.jarr acc, s'.drop 1)
      else
        match jsonParseVal fuel s' with
        | none => none
        | some (v, rest) =>
            let rest' := jsonSkipWs rest
            match rest' with
            | ']' :: r2 => some (.jarr (acc ++ [v]), r2)
            | ',' :: r2 => jsonParseArrItems fuel r2 false (acc ++ [v])
            | _ => none

/-- Object members after the opening brace. -/
def jsonParseObjItems (fuel : Nat) (s : List Char) (first : Bool)
    (acc : List (List Char × jval)) : Option (jval × List Char) :=
  match fuel with
  | 0 => none
  | fuel + 1 =>
      let s' := jsonSkipWs s
      if first && charAt s' 0 = rbrace then some (.jobj acc, s'.drop 1)
      else
        match s' with
        | '"' :: r =>
            match jsonParseStringBody (r.length + 1) r [] with
            | none => none
            | some (k, r2) =>
                let r3 := jsonSkipWs r2
                match r3 with
                | ':' :: r4 =>
                    match jsonParseVal fuel r4 with
                    | none => none
                    | some (v, rest) =>
                        let rest' := jsonSkipWs rest
                        match rest' with
                        | ',' :: r5 => jsonParseObjItems fuel r5 false (jsonObjSet acc k v)
                        | c :: r5 =>
                            if c = rbrace then some (.jobj (jsonObjSet acc k v), r5)
                            else none
                        | _ => none
                | _ => none
        | _ => none

end

/-- Model of `json_loadb(buf, len, 0, &err)`: one complete document,
top level restricted to array/object, no trailing garbage. -/
def jsonLoad (s : List Char) : Option jval :=
  match jsonParseVal (s.length + 1) s with
  | none => none
  | some (v, rest) =>
      if (jsonSkipWs rest).isEmpty && (json_is_array v || json_is_object v) then some v
      else none

/-- String escaping of `json_dumps`. -/
def jsonEscapeChar (c : Char) : List Char :=
  if c = '"' then cs "\\\""
  else if c = '\\' then cs "\\\\"
  else if c = '\x08' then cs "\\b"
  else if c = '\x0c' then cs "\\f"
  else if c = '\n' then cs "\\n"
  else if c = '\r' then cs "\\r"
  else if c = '\t' then cs "\\t"
  else if c.toNat < 0x20 then
    let hexDigit : Nat → Char := fun n =>
      if n < 10 then Char.ofNat (48 + n) else Char.ofNat (87 + n)
    cs "\\u00" ++ [hexDigit (c.toNat / 16), hexDigit (c.toNat % 16)]
  else [c]

/-- Rendering of an integer value. -/
def intToChars (n : Int) : List Char := (toString n).data

mutual

/-- Model of `json_dumps(v, JSON_COMPACT)`. -/
def json_dumps_compact : jval → List Char
  | .jnull => cs "null"
  | .jbool true => cs "true"
  | .jbool false => cs "false"
  | .jint n => intToChars n
  | .jreal raw => raw
  | .jstr s => ['"'] ++ s.flatMap jsonEscapeChar ++ ['"']
  | .jarr xs => ['['] ++ List.intercalate [','] (jsonDumpArr xs) ++ [']']
  | .jobj fields =>
      [lbrace] ++ List.intercalate [','] (jsonDumpObj fields) ++ [rbrace]

/-- Serialisation of array elements, in order. -/
def jsonDumpArr : List jval → List (List Char)
  | [] => []
  | v :: vs => json_dumps_compact v :: jsonDumpArr vs

/-- Serialisation of object members, in order. -/
def jsonDumpObj : List (List Char × jval) → List (List Char)
  | [] => []
  | (k, v) :: fs =>
      (['"'] ++ k.flatMap jsonEscapeChar ++ ['"', ':'] ++ json_dumps_compact v) :: jsonDumpObj fs

end

/-! Input format detection (input_format.c). -/

/-- Enumeration mirroring `tm_ifmt_t`. -/
inductive tm_ifmt where
  | auto | raw | json | json_array | csv | tsv | generic
deriving DecidableEq, Repr

/-- Embedding of `tm_detect_input_format` (input_format.c): skip leading
whitespace; `[` gives JSON-array and a left brace JSON-lines; otherwise,
when the first line is newline-terminated, apply the delimiter-count
rules, with the header-keyword search running over the whole remaining
NUL-terminated buffer (`tm_strcasestr(p, ...)`), not just the first
line. -/
def tm_detect_input_format (content : List Char) : tm_ifmt :=
  if content.isEmpty then .raw
  else
    let p := content.dropWhile (fun c => isPosixSpace c)
    if p.isEmpty then .raw
    else if charAt p 0 = '[' then .json_array
    else if charAt p 0 = lbrace then .json
    else if '\n' ∈ p then
      let firstLine := lineOf p
      let tabs := firstLine.count '\t'
      let commas := firstLine.count ','
      let kw := strcasestrB p (cs "timestamp") || strcasestrB p (cs "severity") ||
                strcasestrB p (cs "message") || strcasestrB p (cs "textPayload")
      if (2 ≤ tabs || (0 < tabs && commas ≤ tabs)) && kw then .tsv
      else if 2 ≤ commas && kw then .csv
      else .raw
    else .raw

/-- Embedding of the static `looks_like_stack_trace` heuristic
(input_format.c). -/
def looks_like_stack_trace (text : List Char) : Bool :=
  strstrB text (cs "Traceback (most recent call last)") ||
  (strstrB text (cs "File \"") && strstrB text (cs ", line ")) ||
  strstrB text (cs "panic:") || strstrB text (cs "goroutine ") ||
  (strstrB text (cs ".go:") && strstrB text (cs "+0x")) ||
  (strstrB text (cs "    at ") && (strstrB text (cs ".js:") || strstrB text (cs ".ts:"))) ||
  (strstrB text (cs "at ") && strstrB text (cs ".java:")) ||
  (strstrB text (cs "Exception") && strstrB text (cs "\n\tat ")) ||
  ((strstrB text (cs "Error:") || strstrB text (cs "Exception:")) &&
   (strstrB text (cs "\n\t") || strstrB text (cs "\n    at ")))

/-! Structured-log trace extraction (input_format.c). -/

/-- Field-name table mirroring `tm_log_fields_t`. -/
structure tm_log_fields where
  text_payload : Option (List Char)
  json_payload : Option (List Char)
  message : Option (List Char)
  stack_trace : Option (List Char)
  timestamp : Option (List Char)
  severity : Option (List Char)
  log_events : Option (List Char)
  error : Option (List Char)
  exception : Option (List Char)
  traceback : Option (List Char)

/-- The `TM_GCP_LOG_FIELDS` constant. -/
def TM_GCP_LOG_FIELDS : tm_log_fields :=
  { text_payload := some (cs "textPayload")
    json_payload := some (cs "jsonPayload")
    message := some (cs "message")
    stack_trace := some (cs "stack_trace")
    timestamp := some (cs "timestamp")
    severity := some (cs "severity")
    log_events := none
    error := some (cs "error")
    exception := some (cs "exception")
    traceback := some (cs "traceback") }

/-- Embedding of `json_get_nested`: dot-path lookup, `strtok`-style
(empty path components are skipped). -/
def json_get_nested (obj : jval) (path : List Char) : Option jval :=
  let parts := (path.splitOn '.').filter (fun t => !t.isEmpty)
  parts.foldl
    (fun cur tok =>
      match cur with
      | none => none
      | some c => if json_is_object c then json_object_get c tok else none)
    (some obj)

/-- Embedding of `json_get_string_copy`. -/
def json_get_string_copy (obj : jval) (key : List Char) : Option (List Char) :=
  match json_get_nested obj key with
  | some (.jstr s) => some s
  | _ => none

/-- Embedding of `extract_gcp_message`. -/
def extract_gcp_message (obj : jval) : Option (List Char) :=
  let fromJp : Option (List Char) :=
    match json_object_get obj (cs "jsonPayload") with
    | some jp =>
        if json_is_object jp then
          let msg := json_object_get jp (cs "message")
          let nested : Option (List Char) :=
            match msg with
            | some m =>
                if json_is_object m then
                  match json_object_get m (cs "message") with
                  | some (.jstr inner) => some inner
                  | _ => none
                else none
            | none => none
          let asStr : Option (List Char) :=
            match msg with
            | some (.jstr s) => some s
            | _ => none
          let asMsgKey : Option (List Char) :=
            match json_object_get jp (cs "msg") with
            | some (.jstr s) => some s
            | _ => none
          nested <|> asStr <|> asMsgKey
        else none
    | none => none
  let fromTp : Option (List Char) :=
    match json_object_get obj (cs "textPayload") with
    | some (.jstr s) => some s
    | _ => none
  let fromMsg : Option (List Char) :=
    match json_object_get obj (cs "message") with
    | some (.jstr s) => some s
    | _ => none
  fromJp <|> fromTp <|> fromMsg

/-- Embedding of `has_source_location`. -/
def has_source_location (obj : jval) : Bool :=
  match json_object_get obj (cs "sourceLocation") with
  | some sl => json_is_object sl
  | none => false

/-- Candidate acceptance used at most priority levels: a string field
that also passes the stack-trace heuristic. -/
def tryTraceField (obj : jval) (key : List Char) : Option (List Char) :=
  match json_get_string_copy obj key with
  | some r => if looks_like_stack_trace r then some r else none
  | none => none

/-- Embedding of `extract_trace_from_json_obj`: the five-level priority
chain (text payload, unconditional `stack_trace`, common trace-bearing
fields, `jsonPayload.message` / `message`, `error`). -/
def extract_trace_from_json_obj (obj : jval) (f : tm_log_fields) : Option (List Char) :=
  if !json_is_object obj then none
  else
    let p1 := f.text_payload.bind (tryTraceField obj)
    let p2 := f.stack_trace.bind (fun key =>
      match json_get_string_copy obj key with
      | some r => if 0 < r.length then some r else none
      | none => none)
    let traceFields := [cs "exception", cs "traceback", cs "stacktrace",
                        cs "stack_trace", cs "error.stack", cs "err.stack"]
    let p3 := traceFields.findSome? (tryTraceField obj)
    let p4a := f.json_payload.bind (fun jp =>
      tryTraceField obj (jp ++ ['.'] ++ (f.message.getD (cs "message"))))
    let p4b := f.message.bind (tryTraceField obj)
    let p5 := f.error.bind (tryTraceField obj)
    p1 <|> p2 <|> p3 <|> p4a <|> p4b <|> p5

/-- Severity test of the synthetic-trace builder's first pass. -/
def gcpSevIsError (obj : jval) : Bool :=
  match json_object_get obj (cs "severity") with
  | some (.jstr sev) =>
      strcasecmpEq sev (cs "ERROR") || strcasecmpEq sev (cs "CRITICAL") ||
      strcasecmpEq sev (cs "FATAL")
  | _ => false

/-- Error-header text of `build_trace_from_gcp_logs`: `none` when no
error-like record was found (`found_error` stays false), otherwise the
(possibly empty) header text. -/
def gcpErrorHeader (objs : List jval) : Option (List Char) :=
  match objs.find? gcpSevIsError with
  | some obj =>
      let part1 := match extract_gcp_message obj with
        | some m => cs "Error: " ++ m ++ cs "\n\n"
        | none => []
      let part2 :=
        match json_object_get obj (cs "jsonPayload") with
        | some jp =>
            match json_object_get jp (cs "message") with
            | some msgObj =>
                if json_is_object msgObj then
                  match json_object_get msgObj (cs "variables") with
                  | some vars =>
                      if json_is_object vars then
                        match json_object_get vars (cs "err") with
                        | some (.jstr err) => cs "Cause: " ++ err ++ cs "\n\n"
                        | _ => []
                      else []
                  | none => []
                else []
            | none => []
        | none => []
      some (part1 ++ part2)
  | none =>
      objs.findSome? (fun obj =>
        match extract_gcp_message obj with
        | some m =>
            if strstrB m (cs "error") || strstrB m (cs "Error") ||
               strstrB m (cs "fail") || strstrB m (cs "Fail") then
              some (cs "Error: " ++ m ++ cs "\n\n")
            else none
        | none => none)

/-- Synthetic Go-style frame lines from `sourceLocation` records, capped
at 50 frames (the 50th is emitted, then the loop breaks). -/
def gcpFrameLoop : List jval → Nat → List Char → Nat × List Char
  | [], n, acc => (n, acc)
  | obj :: rest, n, acc =>
      if !has_source_location obj then gcpFrameLoop rest n acc
      else
        match json_object_get obj (cs "sourceLocation") with
        | none => gcpFrameLoop rest n acc
        | some sl =>
            match json_object_get sl (cs "function"), json_object_get sl (cs "file") with
            | some (.jstr func), some (.jstr file) =>
                let lineTxt := match json_object_get sl (cs "line") with
                  | some (.jstr l) => l
                  | some (.jint i) => intToChars i
                  | _ => cs "0"
                let frameTxt := func ++ cs "(...)\n" ++ cs "\t" ++ file ++ [':'] ++
                                lineTxt ++ cs " +0x0\n"
                if 50 ≤ n + 1 then (n + 1, acc ++ frameTxt)
                else gcpFrameLoop rest (n + 1) (acc ++ frameTxt)
            | _, _ => gcpFrameLoop rest n acc

/-- Embedding of `build_trace_from_gcp_logs`. -/
def build_trace_from_gcp_logs (arr : jval) : Option (List Char) :=
  match arr with
  | .jarr objs =>
      let hdr := gcpErrorHeader objs
      let (n, frameTxt) := gcpFrameLoop objs 0 []
      if n = 0 && hdr.isNone then none
      else some (hdr.getD [] ++ cs "goroutine 1 [running]:\n" ++ frameTxt)
  | _ => none

/-- One extracted log entry (`tm_log_entry_t`). -/
structure tm_log_entry where
  text : List Char
  timestamp : Option (List Char)
  severity : Option (List Char)
  source : Option (List Char)
deriving DecidableEq, Repr

/-- Line loop of `tm_extract_from_json` (NDJSON): parse each non-blank
line as a JSON object and keep those yielding a trace candidate. -/
def extractJsonLoop (fuel : Nat) (s : List Char) (acc : List tm_log_entry) : List tm_log_entry :=
  match fuel with
  | 0 => acc
  | fuel + 1 =>
    if s.isEmpty then acc
    else
    let line := lineOf s
    let acc' :=
      if line.isEmpty || (line.length = 1 && charAt line 0 = '\r') then acc
      else
        match jsonLoad line with
        | some obj =>
            if json_is_object obj then
              match extract_trace_from_json_obj obj TM_GCP_LOG_FIELDS with
              | some trace =>
                  acc ++ [{ text := trace
                            timestamp := json_get_string_copy obj (cs "timestamp")
                            severity := json_get_string_copy obj (cs "severity")
                            source := none }]
              | none => acc
            else acc
        | none => acc
    extractJsonLoop fuel (afterLine s) acc'

/-- Embedding of `tm_extract_from_json` (NULL fields gives the GCP
table); `none` models the NULL return for empty results. -/
def tm_extract_from_json (content : List Char) : Option (List tm_log_entry) :=
  if content.isEmpty then none
  else
    let entries := extractJsonLoop (content.length + 1) content []
    if entries.isEmpty then none else some entries

/-- Embedding of `tm_extract_from_json_array`, with the GCP
`sourceLocation` synthetic-trace fallback. -/
def tm_extract_from_json_array (content : List Char) : Option (List tm_log_entry) :=
  if content.isEmpty then none
  else
    match jsonLoad content with
    | none => none
    | some root =>
        match root with
        | .jarr objs =>
            let entries := objs.foldl
              (fun acc obj =>
                if !json_is_object obj then acc
                else
                  match extract_trace_from_json_obj obj TM_GCP_LOG_FIELDS with
                  | some trace =>
                      acc ++ [{ text := trace
                                timestamp := json_get_string_copy obj (cs "timestamp")
                                severity := json_get_string_copy obj (cs "severity")
                                source := none }]
                  | none => acc)
              []
            let entries' :=
              if entries.isEmpty then
                match build_trace_from_gcp_logs root with
                | some t => [{ text := t, timestamp := none,
                               severity := some (cs "ERROR"), source := none }]
                | none => []
              else entries
            if entries'.isEmpty then none else some entries'
        | _ => none

/-! CSV/TSV extraction (input_format.c). -/

/-- Quoted-field body of `parse_csv_field`: a doubled quote yields one
literal quote, a lone quote closes the field, after which one delimiter
or line break (CRLF counting as one) is consumed. -/
def parseQuotedCsv (delim : Char) : List Char → List Char × List Char
  | [] => ([], [])
  | c :: r =>
      if c = '"' then
        match r with
        | c2 :: r2 =>
            if c2 = '"' then
              let (f, rest) := parseQuotedCsv delim r2
              ('"' :: f, rest)
            else if c2 = delim || c2 = '\n' || c2 = '\r' then
              (if c2 = '\r' && charAt r2 0 = '\n' then ([], r2.drop 1) else ([], r2))
            else ([], r)
        | [] => ([], [])
      else
        let (f, rest) := parseQuotedCsv delim r
        (c :: f, rest)

/-- Embedding of `parse_csv_field`: returns the field text and the
remaining input (the cursor), or `none` at end of input. -/
def parse_csv_field (s : List Char) (delim : Char) : Option (List Char × List Char) :=
  match s with
  | [] => none
  | '"' :: r => some (parseQuotedCsv delim r)
  | _ =>
      let field := s.takeWhile (fun c => c ≠ delim && c ≠ '\n' && c ≠ '\r')
      let rest := s.drop field.length
      let rest' := match rest with
        | c :: r2 =>
            if c = delim then r2
            else if c = '\r' then (if charAt r2 0 = '\n' then r2.drop 1 else r2)
            else if c = '\n' then r2
            else rest
        | [] => []
      some (field, rest')

/-- Embedding of `find_column` (case-insensitive header lookup). -/
def find_column (headers : List (List Char)) (name : List Char) : Option Nat :=
  headers.findIdx? (fun h => strcasecmpEq h name)

/-- Header-row loop of `tm_extract_from_csv` (fuelled; every field
consumes at least one byte). -/
def csvHeaderLoop (fuel : Nat) (s : List Char) (delim : Char)
    (acc : List (List Char)) : List (List Char) × List Char :=
  match fuel with
  | 0 => (acc, s)
  | fuel + 1 =>
      match s with
      | [] => (acc, s)
      | c :: _ =>
          if c = '\n' || c = '\r' then (acc, s)
          else
            match parse_csv_field s delim with
            | some (f, rest) => csvHeaderLoop fuel rest delim (acc ++ [f])
            | none => (acc, s)

/-- Fields of one data row, bounded by the header count. -/
def csvFieldsLoop (fuel : Nat) (s : List Char) (delim : Char) (hc : Nat)
    (acc : List (List Char)) : List (List Char) × List Char :=
  match fuel with
  | 0 => (acc, s)
  | fuel + 1 =>
      match s with
      | [] => (acc, s)
      | c :: _ =>
          if c = '\n' || c = '\r' || hc ≤ acc.length then (acc, s)
          else
            match parse_csv_field s delim with
            | some (f, rest) => csvFieldsLoop fuel rest delim hc (acc ++ [f])
            | none => (acc, s)

/-- Data-row loop of `tm_extract_from_csv`: keep rows whose text column
passes the stack-trace heuristic. -/
def csvRowLoop (fuel : Nat) (s : List Char) (delim : Char) (hc textCol : Nat)
    (tsCol sevCol : Option Nat) (acc : List tm_log_entry) : List tm_log_entry :=
  match fuel with
  | 0 => acc
  | fuel + 1 =>
      if s.isEmpty then acc
      else
        let (fields, rest) := csvFieldsLoop (s.length + 1) s delim hc []
        let rest2 := if charAt rest 0 = '\r' then rest.drop 1 else rest
        let rest3 := if charAt rest2 0 = '\n' then rest2.drop 1 else rest2
        let acc' :=
          if textCol < fields.length then
            let txt := fields.getD textCol []
            if looks_like_stack_trace txt then
              acc ++ [{ text := txt
                        timestamp := tsCol.bind (fun i =>
                          if i < fields.length then some (fields.getD i []) else none)
                        severity := sevCol.bind (fun i =>
                          if i < fields.length then some (fields.getD i []) else none)
                        source := none }]
            else acc
          else acc
        csvRowLoop fuel rest3 delim hc textCol tsCol sevCol acc'

/-- Embedding of `tm_extract_from_csv`. -/
def tm_extract_from_csv (content : List Char) (delim : Char) : Option (List tm_log_entry) :=
  if content.isEmpty then none
  else
    let (headers, cur1) := csvHeaderLoop (content.length + 1) content delim []
    let cur2 := if charAt cur1 0 = '\r' then cur1.drop 1 else cur1
    let cur3 := if charAt cur2 0 = '\n' then cur2.drop 1 else cur2
    if headers.isEmpty then none
    else
      let textCol := find_column headers (cs "textPayload") <|>
                     find_column headers (cs "message") <|>
                     find_column headers (cs "text") <|>
                     find_column headers (cs "log")
      match textCol with
      | none => none
      | some tc =>
          let tsCol := find_column headers (cs "timestamp")
          let sevCol := find_column headers (cs "severity")
          let entries := csvRowLoop (cur3.length + 1) cur3 delim headers.length tc tsCol sevCol []
          if entries.isEmpty then none else some entries

/-! Generic log model (input_format.c). -/

/-- Enumeration mirroring `tm_log_format_t`. -/
inductive tm_log_format where
  | unknown | stacktrace | nginx | apache | syslog | docker | kubernetes
  | json_struct | custom
deriving DecidableEq, Repr

/-- Embedding of `tm_log_format_name`. -/
def tm_log_format_name (fmt : tm_log_format) : List Char :=
  match fmt with
  | .unknown => cs "unknown"
  | .stacktrace => cs "stack-trace"
  | .nginx => cs "nginx"
  | .apache => cs "apache"
  | .syslog => cs "syslog"
  | .docker => cs "docker"
  | .kubernetes => cs "kubernetes"
  | .json_struct => cs "json-structured"
  | .custom => cs "custom"

/-- Embedding of `tm_generic_log_entry_t`.  The float relevance score is
modelled as a rational: every weight in the source is a small decimal
constant and no theorem below depends on float rounding. -/
structure tm_generic_log_entry where
  timestamp : Option (List Char)
  severity : Option (List Char)
  message : List Char
  source : Option (List Char)
  metadata : Option jval
  is_error : Bool
  is_anomaly : Bool
  relevance_score : ℚ
  raw_line : Option (List Char)
  line_number : Nat

/-- Embedding of `tm_generic_log_t` (aggregate fields the claims touch). -/
structure tm_generic_log where
  entries : List tm_generic_log_entry
  detected_format : tm_log_format
  format_description : Option (List Char)
  time_range_start : Option (List Char)
  time_range_end : Option (List Char)
  total_errors : Nat
  total_warnings : Nat
  total_info : Nat

/-- Embedding of `tm_generic_log_new`. -/
def tm_generic_log_new : tm_generic_log :=
  { entries := [], detected_format := .unknown, format_description := none,
    time_range_start := none, time_range_end := none,
    total_errors := 0, total_warnings := 0, total_info := 0 }

/-- Error-severity test of `tm_generic_log_add_entry`. -/
def sevIsError (severity : Option (List Char)) : Bool :=
  match severity with
  | some sev =>
      strcasecmpEq sev (cs "ERROR") || strcasecmpEq sev (cs "FATAL") ||
      strcasecmpEq sev (cs "CRITICAL") || strcasecmpEq sev (cs "EMERG") ||
      strcasecmpEq sev (cs "ALERT")
  | none => false

/-- The entry value `tm_generic_log_add_entry` appends. -/
def mkLogEntry (timestamp severity : Option (List Char)) (msg : List Char)
    (source raw_line : Option (List Char)) (line_number : Nat) : tm_generic_log_entry :=
  { timestamp := timestamp, severity := severity, message := msg,
    source := source, metadata := none, is_error := sevIsError severity,
    is_anomaly := false, relevance_score := 0,
    raw_line := raw_line, line_number := line_number }

/-- Embedding of `tm_generic_log_add_entry`: appends one entry, derives
`is_error` and the aggregate counters from the severity string, and
maintains the time range. -/
def tm_generic_log_add_entry (log : tm_generic_log)
    (timestamp severity : Option (List Char)) (message : Option (List Char))
    (source raw_line : Option (List Char)) (line_number : Nat) : tm_generic_log :=
  match message with
  | none => log
  | some msg =>
      let isErr := sevIsError severity
      let isWarn := match severity with
        | some sev => strcasecmpEq sev (cs "WARN") || strcasecmpEq sev (cs "WARNING")
        | none => false
      let isInfo := match severity with
        | some sev => strcasecmpEq sev (cs "INFO")
        | none => false
      { log with
        entries := log.entries ++ [mkLogEntry timestamp severity msg source raw_line line_number]
        total_errors := if isErr then log.total_errors + 1 else log.total_errors
        total_warnings := if !isErr && isWarn then log.total_warnings + 1 else log.total_warnings
        total_info := if !isErr && !isWarn && isInfo then log.total_info + 1 else log.total_info
        time_range_start :=
          match timestamp with
          | some ts => some (log.time_range_start.getD ts)
          | none => log.time_range_start
        time_range_end :=
          match timestamp with
          | some ts => some ts
          | none => log.time_range_end }

/-- Embedding of `tm_has_stack_trace_patterns` (input_format.c). -/
def tm_has_stack_trace_patterns (content : List Char) : Bool :=
  if content.isEmpty then false
  else
    strstrB content (cs "Traceback (most recent call last)") ||
    (strstrB content (cs "File \"") && strstrB content (cs ", line ")) ||
    strstrB content (cs "panic:") ||
    (strstrB content (cs "goroutine ") && strstrB content (cs ".go:")) ||
    (strstrB content (cs "    at ") &&
     (strstrB content (cs ".js:") || strstrB content (cs ".ts:"))) ||
    (strstrB content (cs "\n\tat ") && strstrB content (cs ".java:")) ||
    strstrB content (cs "Exception in thread")

/-- Per-line counting pass of `tm_detect_log_format`: samples up to the
first 20 non-empty lines.  The syslog and docker checks call `strstr`
on the line pointer, which searches the whole remaining NUL-terminated
buffer, and are modelled on the suffix accordingly. -/
def logFmtCounts (fuel : Nat) (s : List Char) (json nginx syslog docker sample : Nat) :
    Nat × Nat × Nat × Nat × Nat :=
  match fuel with
  | 0 => (json, nginx, syslog, docker, sample)
  | fuel + 1 =>
    if s.isEmpty then (json, nginx, syslog, docker, sample)
    else if 20 ≤ sample then (json, nginx, syslog, docker, sample)
    else
    let line := lineOf s
    let L := line.length
    if L = 0 then logFmtCounts fuel (afterLine s) json nginx syslog docker sample
    else
      let json' := if charAt line 0 = lbrace && 2 < L then json + 1 else json
      let nginx' :=
        if 20 < L then
          match line.findIdx? (· = '['), line.findIdx? (· = '"') with
          | some bi, some qi =>
              if bi < qi && (line.take bi).any (· = '.') then nginx + 1 else nginx
          | _, _ => nginx
        else nginx
      let syslog' :=
        if 15 < L &&
           (charAt line 0 = '<' ||
            (isAlphaC (charAt line 0) && isAlphaC (charAt line 1) &&
             isAlphaC (charAt line 2) && charAt line 3 = ' ')) &&
           strstrB s (cs ": ") then syslog + 1
        else syslog
      let docker' :=
        if 30 < L &&
           ((s.drop 23).take 8 = cs " stdout " || (s.drop 23).take 8 = cs " stderr " ||
            strstrB s (cs "docker") || strstrB s (cs "container")) then docker + 1
        else docker
      logFmtCounts fuel (afterLine s) json' nginx' syslog' docker' (sample + 1)

/-- Embedding of `tm_detect_log_format` (input_format.c). -/
def tm_detect_log_format (content : List Char) : tm_log_format :=
  if content.isEmpty then .unknown
  else if tm_has_stack_trace_patterns content then .stacktrace
  else
    let (j, n, sy, d, sc) := logFmtCounts (content.length + 1) content 0 0 0 0 0
    if sc / 2 < j then .json_struct
    else if sc / 2 < n then .nginx
    else if sc / 2 < sy then .syslog
    else if sc / 3 < d then .docker
    else if strstrB content (cs "kube-") || strstrB content (cs "pod/") ||
            strstrB content (cs "namespace=") || strstrB content (cs "kubernetes") then
      .kubernetes
    else .custom

/-- Enumeration mirroring `tm_analysis_mode_t`. -/
inductive tm_analysis_mode where
  | auto | stack_trace | generic_log
deriving DecidableEq, Repr

/-- Embedding of `tm_detect_analysis_mode`. -/
def tm_detect_analysis_mode (content : List Char) : tm_analysis_mode :=
  if content.isEmpty then .generic_log
  else
    let fmt := tm_detect_log_format content
    if fmt = .stacktrace then .stack_trace
    else if fmt = .json_struct && tm_has_stack_trace_patterns content then .stack_trace
    else .generic_log

/-! Per-family line parsers (input_format.c).  Each takes the current
suffix of the buffer (the C line pointer) plus the CR-stripped line
length, because several of their searches (`strstr`, `strncasecmp`,
lookahead reads) run past the line into the NUL-terminated tail. -/

/-- Syslog severity table indexed by `priority & 0x7`. -/
def syslogLevels : List (List Char) :=
  [cs "EMERG", cs "ALERT", cs "CRITICAL", cs "ERROR",
   cs "WARNING", cs "NOTICE", cs "INFO", cs "DEBUG"]

/-- Embedding of `parse_syslog_line`.  `strtol` is modelled with its
leading-whitespace/sign handling and `LONG_MIN`/`LONG_MAX` clamping,
followed by the `(int)` cast (two's-complement wrap to 32 bits, the
LP64 behaviour the code runs under); a severity is assigned only under
the source's `priority >= 0` guard.  The `": "` search is unbounded
and a match past the line end is rejected (`colon > end`).  Result:
`(timestamp, severity, message, source)`. -/
def parse_syslog_line (tail : List Char) (len : Nat) :
    Option (Option (List Char) × Option (List Char) × List Char × Option (List Char)) :=
  if len < 10 then none
  else
    let (priority, pOff) : Option Int × Nat :=
      if charAt tail 0 = '<' then
        let afterLt := tail.drop 1
        let ws := afterLt.takeWhile isPosixSpace
        let signLen := if charAt afterLt ws.length = '+' || charAt afterLt ws.length = '-' then 1 else 0
        let ds := (afterLt.drop (ws.length + signLen)).takeWhile isDigitC
        let longValue : Int :=
          if charAt afterLt ws.length = '-' then
            max (-(atoiDigits ds : Int)) (-(2 ^ 63))
          else min (atoiDigits ds : Int) (2 ^ 63 - 1)
        let value : Int :=
          let u := longValue.emod (2 ^ 32)
          if u < 2 ^ 31 then u else u - 2 ^ 32
        let pendIdx := if ds.isEmpty then 1 else 1 + ws.length + signLen + ds.length
        if charAt tail pendIdx = '>' then (some value, pendIdx + 1) else (some value, 1)
      else (none, 0)
    let p := tail.drop pOff
    match findSub p (cs ": ") with
    | none => none
    | some colonRel =>
        let colonAbs := pOff + colonRel
        if len < colonAbs then none
        else
          let region := p.take colonRel
          let (ts, src) : Option (List Char) × Option (List Char) :=
            match region.findIdx? (· = ' ') with
            | some sp =>
                (some (p.take (min sp 30)),
                 some ((p.drop (sp + 1)).take (colonRel - sp - 1)))
            | none => (none, none)
          let msg :=
            if colonAbs + 2 ≤ len then (p.drop (colonRel + 2)).take (len - colonAbs - 2)
            else p.drop (colonRel + 2)
          let sev := priority.bind (fun pr =>
            if 0 ≤ pr then some (syslogLevels.getD (pr % 8).toNat []) else none)
          some (ts, sev, msg, src)

/-- First string-valued member among an alias list. -/
def firstStringField (obj : jval) (keys : List (List Char)) : Option (List Char) :=
  keys.findSome? (fun k =>
    match json_object_get obj k with
    | some (.jstr s) => some s
    | _ => none)

/-- Embedding of `parse_json_log_line`: the line must parse as a JSON
object; fields are pulled from ordered alias lists, with the compact
serialisation of the whole object as the message fallback.  Result:
`(timestamp, severity, message, source, metadata)`. -/
def parse_json_log_line (tail : List Char) (len : Nat) :
    Option (Option (List Char) × Option (List Char) × List Char ×
            Option (List Char) × Option jval) :=
  let line := tail.take len
  match jsonLoad line with
  | some obj =>
      if json_is_object obj then
        let ts := firstStringField obj
          [cs "timestamp", cs "time", cs "@timestamp", cs "ts", cs "datetime", cs "date"]
        let sev := firstStringField obj
          [cs "level", cs "severity", cs "loglevel", cs "log_level", cs "lvl"]
        let msg := firstStringField obj
          [cs "message", cs "msg", cs "@message", cs "text", cs "log"]
        let src := firstStringField obj
          [cs "source", cs "logger", cs "service", cs "component", cs "name"]
        some (ts, sev, msg.getD (json_dumps_compact obj), src, some obj)
      else none
  | none => none

/-- Space-skipping helper of `parse_generic_line` (`while (*p == ' ')`,
bounded by the line length). -/
def skipSpacesIdx (fuel : Nat) (tail : List Char) (len idx : Nat) : Nat :=
  match fuel with
  | 0 => idx
  | fuel + 1 =>
      if idx < len && charAt tail idx = ' ' then skipSpacesIdx fuel tail len (idx + 1)
      else idx

/-- Timezone-suffix scan after the 19-byte ISO timestamp: advance over
space/`Z`/sign/digit bytes, stopping at a space not followed by another
space (the lookahead may read past the line into the tail). -/
def tzScanIdx (fuel : Nat) (tail : List Char) (len idx : Nat) : Nat :=
  match fuel with
  | 0 => idx
  | fuel + 1 =>
      if idx < len && (charAt tail idx = ' ' || charAt tail idx = 'Z' ||
            charAt tail idx = '+' || charAt tail idx = '-' || isDigitC (charAt tail idx)) then
        if charAt tail idx = ' ' && charAt tail (idx + 1) ≠ ' ' then idx
        else tzScanIdx fuel tail len (idx + 1)
      else idx

/-- Severity keyword table of `parse_generic_line`, in scan order. -/
def genericLevels : List (List Char) :=
  [cs "ERROR", cs "WARN", cs "WARNING", cs "INFO", cs "DEBUG",
   cs "FATAL", cs "CRITICAL", cs "TRACE", cs "NOTICE"]

/-- Embedding of `parse_generic_line`: optional 19-byte ISO-8601-like
timestamp, then a bracketed or colon/space-terminated severity keyword,
then the remainder as the message (`none` when no message remains).
Result: `(timestamp, severity, message, source)`. -/
def parse_generic_line (tail : List Char) (len : Nat) :
    Option (Option (List Char) × Option (List Char) × List Char × Option (List Char)) :=
  if len < 3 then none
  else
    let (ts, off0) : Option (List Char) × Nat :=
      if 19 < len && charAt tail 4 = '-' && charAt tail 7 = '-' &&
         (charAt tail 10 = 'T' || charAt tail 10 = ' ') && charAt tail 13 = ':' then
        let o1 := tzScanIdx (len + 1) tail len 19
        (some (tail.take 19), skipSpacesIdx (len + 1) tail len o1)
      else (none, 0)
    let sevHit := genericLevels.findSome? (fun lvl =>
      if charAt tail off0 = '[' then
        if strncasecmpEq tail (off0 + 1) lvl &&
           charAt tail (off0 + 1 + lvl.length) = ']' then
          some (lvl, skipSpacesIdx (len + 1) tail len (off0 + 2 + lvl.length))
        else none
      else if strncasecmpEq tail off0 lvl &&
              (charAt tail (off0 + lvl.length) = ':' ||
               charAt tail (off0 + lvl.length) = ' ' ||
               charAt tail (off0 + lvl.length) = '\t') then
        let o1 := off0 + lvl.length
        let o2 := if charAt tail o1 = ':' then o1 + 1 else o1
        some (lvl, skipSpacesIdx (len + 1) tail len o2)
      else none)
    let (sev, off1) : Option (List Char) × Nat :=
      match sevHit with
      | some (lvl, o) => (some lvl, o)
      | none => (none, off0)
    if off1 < len then some (ts, sev, (tail.drop off1).take (len - off1), none)
    else none

/-- CR-stripped length of one raw line (`line_len--` when the line ends
in a carriage return). -/
def strippedLen (rawLine : List Char) : Nat :=
  if 0 < rawLine.length && charAt rawLine (rawLine.length - 1) = '\r' then
    rawLine.length - 1
  else rawLine.length

/-- The blank-line skip of the parsing loops: empty lines and lone-CR
lines produce no entry. -/
def isBlankLine (rawLine : List Char) : Bool :=
  rawLine.isEmpty || (rawLine.length = 1 && charAt rawLine 0 = '\r')

/-- One iteration body of `tm_parse_generic_log`'s line loop: dispatch on
the format family, add exactly one entry (parsed, or the raw fallback),
and attach JSON metadata to the entry just added. -/
def genericLogStep (fmt : tm_log_format) (s : List Char) (lineNum : Nat)
    (log : tm_generic_log) : tm_generic_log :=
  let rawLine := lineOf s
  if isBlankLine rawLine then log
  else
    let len := strippedLen rawLine
    let raw := some (s.take len)
    match fmt with
    | .json_struct =>
        match parse_json_log_line s len with
        | some (ts, sev, msg, src, meta) =>
            let log' := tm_generic_log_add_entry log ts sev (some msg) src raw lineNum
            match meta with
            | some m =>
                { log' with entries :=
                    log'.entries.dropLast ++
                      (match log'.entries.getLast? with
                       | some e => [{ e with metadata := some m }]
                       | none => []) }
            | none => log'
        | none => tm_generic_log_add_entry log none none (some (s.take len)) none raw lineNum
    | .syslog =>
        match parse_syslog_line s len with
        | some (ts, sev, msg, src) =>
            tm_generic_log_add_entry log ts sev (some msg) src raw lineNum
        | none => tm_generic_log_add_entry log none none (some (s.take len)) none raw lineNum
    | _ =>
        match parse_generic_line s len with
        | some (ts, sev, msg, src) =>
            tm_generic_log_add_entry log ts sev (some msg) src raw lineNum
        | none => tm_generic_log_add_entry log none none (some (s.take len)) none raw lineNum

/-- Line loop of `tm_parse_generic_log`: the line counter advances on
every line, blank or not. -/
def genericLogLoop (fuel : Nat) (fmt : tm_log_format) (s : List Char) (lineNum : Nat)
    (log : tm_generic_log) : tm_generic_log :=
  match fuel with
  | 0 => log
  | fuel + 1 =>
      if s.isEmpty then log
      else genericLogLoop fuel fmt (afterLine s) (lineNum + 1) (genericLogStep fmt s lineNum log)

/-- Embedding of `tm_parse_generic_log` (input_format.c). -/
def tm_parse_generic_log (content : List Char) (format_hint : tm_log_format) :
    Option tm_generic_log :=
  if content.isEmpty then none
  else
    let fmt := if format_hint = .unknown then tm_detect_log_format content else format_hint
    let log0 := { tm_generic_log_new with
                  detected_format := fmt
                  format_description := some (tm_log_format_name fmt) }
    some (genericLogLoop (content.length + 1) fmt content 1 log0)

/-- Keyword weight table of `tm_score_entry_relevance`. -/
def relevancePatterns : List (List Char × ℚ) :=
  [(cs "error", 3/10), (cs "exception", 4/10), (cs "failed", 3/10),
   (cs "failure", 3/10), (cs "timeout", 25/100), (cs "refused", 25/100),
   (cs "denied", 2/10), (cs "crash", 5/10), (cs "panic", 5/10),
   (cs "fatal", 5/10), (cs "critical", 4/10), (cs "segfault", 5/10),
   (cs "oom", 4/10), (cs "out of memory", 4/10), (cs "connection reset", 3/10),
   (cs "502", 35/100), (cs "503", 35/100), (cs "500", 3/10)]

/-- Relevance score of one entry before the 1.0 clamp. -/
def entryRawScore (e : tm_generic_log_entry) : ℚ :=
  let base : ℚ :=
    if e.is_error then 4/10
    else match e.severity with
      | some sev =>
          if strcasecmpEq sev (cs "WARN") || strcasecmpEq sev (cs "WARNING") then 15/100
          else 0
      | none => 0
  relevancePatterns.foldl
    (fun acc p => if strcasestrB e.message p.1 then acc + p.2 else acc) base

/-- Embedding of `tm_score_entry_relevance`: additive keyword weights on
top of a severity base, clamped to 1, with entries scoring at least 0.5
flagged anomalous. -/
def tm_score_entry_relevance (log : tm_generic_log) : tm_generic_log :=
  { log with entries := log.entries.map (fun e =>
      let score := entryRawScore e
      let clamped := if 1 < score then (1 : ℚ) else score
      { e with relevance_score := clamped
               is_anomaly := if 1/2 ≤ clamped then true else e.is_anomaly }) }

/-! High-level extraction and orchestration (input_format.c). -/

/-- Separator inserted between concatenated extracted traces
(`"\n\n--- Entry N (ts) ---\n\n"`). -/
def entrySeparator (i : Nat) (ts : Option (List Char)) : List Char :=
  cs "\n\n--- Entry " ++ (toString (i + 1)).data ++
  (match ts with
   | some t => cs " (" ++ t ++ cs ")"
   | none => []) ++ cs " ---\n\n"

/-- Concatenation of extracted entries, separators before all but the
first. -/
def concatEntries (es : List tm_log_entry) : List Char :=
  es.enum.foldl
    (fun acc p =>
      acc ++ (if p.1 = 0 then [] else entrySeparator p.1 p.2.timestamp) ++ p.2.text)
    []

/-- Fallback-to-raw wrapper around one structured extraction result. -/
def extractOrRaw (content : List Char) (entries : Option (List tm_log_entry)) :
    Option (List Char) :=
  match entries with
  | none => some content
  | some [] => some content
  | some es => some (concatEntries es)

/-- Embedding of `tm_extract_stack_traces` (input_format.c): RAW input is
returned verbatim; structured input is extracted per format, falling
back to a verbatim copy when no trace-bearing entries were found. -/
def tm_extract_stack_traces (content : List Char) (format_hint : tm_ifmt) :
    Option (List Char) :=
  if content.isEmpty then none
  else
    let format := if format_hint = .auto then tm_detect_input_format content else format_hint
    match format with
    | .raw => some content
    | .json | .json_array =>
        let p := content.dropWhile (fun c => c = ' ' || c = '\t' || c = '\n' || c = '\r')
        extractOrRaw content
          (if charAt p 0 = '[' then tm_extract_from_json_array content
           else tm_extract_from_json content)
    | .csv => extractOrRaw content (tm_extract_from_csv content ',')
    | .tsv => extractOrRaw content (tm_extract_from_csv content '\t')
    | _ => some content

/-- Embedding of `tm_unified_parse` (input_format.c): returns the C
error code, the analysis mode written through the out-parameter, and the
two result out-parameters. -/
def tm_unified_parse (content : List Char) :
    tm_error × tm_analysis_mode × Option tm_stack_trace × Option tm_generic_log :=
  if content.isEmpty then (.invalid_arg, .auto, none, none)
  else
    let mode := tm_detect_analysis_mode content
    let stackResult : Option tm_stack_trace :=
      if mode = .stack_trace then
        match tm_extract_stack_traces content .auto with
        | some extracted => tm_parse_stack_trace (some extracted)
        | none => none
      else none
    match stackResult with
    | some t => (.ok, .stack_trace, some t, none)
    | none =>
        match tm_parse_generic_log content .unknown with
        | some log =>
            if log.entries.isEmpty then (.parse, .generic_log, none, none)
            else (.ok, .generic_log, none, some (tm_score_entry_relevance log))
        | none => (.parse, .generic_log, none, none)

/-! Call-graph builder (ast.c).

The builder reads source files and queries a tree-sitter syntax tree;
both are external inputs.  They are modelled by an environment
`fs : List Char → Option tm_source_file` mapping an absolute path to the
function list that `tm_extract_functions` would produce for that file
(`none` models an unreadable/unparsable file).  The builder's file cache
is transparent over this pure environment.  Everything else —
skip conditions, path resolution, name-then-line lookup, node creation,
entry-point selection and linear caller/callee linking — is embedded
from `tm_graph_builder_build` directly. -/

/-- Embedding of `tm_function_def_t`. -/
structure tm_function_def where
  name : List Char
  qualified_name : List Char
  signature : List Char
  start_line : Nat
  end_line : Nat
deriving DecidableEq, Repr

/-- Parsed source file as the builder sees it: the extracted functions. -/
structure tm_source_file where
  funcs : List tm_function_def
deriving DecidableEq, Repr

/-- Embedding of `tm_find_function` (ast.c): first exact name match. -/
def tm_find_function (file : tm_source_file) (name : List Char) : Option tm_function_def :=
  file.funcs.find? (fun f => f.name = name)

/-- Embedding of `tm_find_function_at_line` (ast.c): innermost function
whose line range contains the line, smallest span winning (strictly, so
the first minimal-span candidate is kept). -/
def tm_find_function_at_line (file : tm_source_file) (line : Nat) : Option tm_function_def :=
  file.funcs.foldl
    (fun best f =>
      if f.start_line ≤ line && line ≤ f.end_line then
        match best with
        | none => some f
        | some b =>
            if f.end_line - f.start_line < b.end_line - b.start_line then some f else some b
      else best)
    none

/-- Embedding of `tm_call_node_t`; the C caller/callee pointers become
indices into the graph's node list. -/
structure tm_call_node where
  name : List Char
  file : List Char
  start_line : Nat
  end_line : Nat
  signature : List Char
  callers : List Nat
  callees : List Nat
  complexity : Nat
deriving DecidableEq, Repr

/-- Embedding of `tm_call_graph_t`; `entry_point` is a node index. -/
structure tm_call_graph where
  nodes : List tm_call_node
  entry_point : Option Nat
deriving DecidableEq, Repr

/-- Absolute-path resolution of one frame (`full_path` computation). -/
def graphFullPath (repo file : List Char) : List Char :=
  if charAt file 0 = '/' then file else repo ++ ['/'] ++ file

/-- Frame resolution of `tm_graph_builder_build`: the skip conditions
(stdlib unless configured, third-party, missing file), the file fetch,
and the name-match-then-line-range function lookup, which is attempted
only for frames that carry a function name.  Returns the resolved
function together with the frame's (unresolved) file path. -/
def resolveFrame (fs : List Char → Option tm_source_file) (include_stdlib : Bool)
    (repo : List Char) (frame : tm_stack_frame) : Option (tm_function_def × List Char) :=
  if !include_stdlib && frame.is_stdlib then none
  else if frame.is_third_party then none
  else
    match frame.file with
    | none => none
    | some file =>
        match fs (graphFullPath repo file) with
        | none => none
        | some src =>
            let func := match frame.function with
              | some fn =>
                  match tm_find_function src fn with
                  | some f => some f
                  | none => tm_find_function_at_line src frame.line
              | none => none
            func.map (fun f => (f, file))

/-- Node construction (`tm_call_node_new` plus the signature copy). -/
def mkCallNode (func : tm_function_def) (frameFile : List Char) : tm_call_node :=
  { name := func.name, file := frameFile,
    start_line := func.start_line, end_line := func.end_line,
    signature := func.signature, callers := [], callees := [], complexity := 0 }

/-- Append of a resolved node: entry-point update (`i == 0 ||
entry_point == NULL`) and the duplicate-suppressing caller/callee link
to the immediately preceding node. -/
def graphAddNode (g : tm_call_graph) (i : Nat) (func : tm_function_def)
    (frameFile : List Char) : tm_call_graph :=
  let node := mkCallNode func frameFile
  let idx := g.nodes.length
  let nodes' := g.nodes ++ [node]
  let entry' := if i = 0 || g.entry_point.isNone then some idx else g.entry_point
  let nodes'' :=
    if 2 ≤ nodes'.length then
      let prevIdx := nodes'.length - 2
      match nodes'.get? prevIdx with
      | some prev =>
          let prev' := { prev with callees :=
            if idx ∈ prev.callees then prev.callees else prev.callees ++ [idx] }
          let withPrev := nodes'.set prevIdx prev'
          match withPrev.get? idx with
          | some nd =>
              withPrev.set idx { nd with callers :=
                if prevIdx ∈ nd.callers then nd.callers else nd.callers ++ [prevIdx] }
          | none => withPrev
      | none => nodes'
    else nodes'
  { nodes := nodes'', entry_point := entry' }

/-- Frame loop of `tm_graph_builder_build` over enumerated frames. -/
def graphBuildLoop (fs : List Char → Option tm_source_file) (include_stdlib : Bool)
    (repo : List Char) : List (Nat × tm_stack_frame) → tm_call_graph → tm_call_graph
  | [], g => g
  | (i, fr) :: rest, g =>
      match resolveFrame fs include_stdlib repo fr with
      | none => graphBuildLoop fs include_stdlib repo rest g
      | some (func, file) => graphBuildLoop fs include_stdlib repo rest (graphAddNode g i func file)

/-- Embedding of `tm_graph_builder_build` (ast.c): mirrors the
`tm_error_t` result; past the argument null checks the function always
returns `TM_OK` with a graph. -/
def tm_graph_builder_build (fs : List Char → Option tm_source_file)
    (include_stdlib : Bool) (repo : List Char) (trace : tm_stack_trace) :
    Except tm_error tm_call_graph :=
  .ok (graphBuildLoop fs include_stdlib repo trace.frames.enum
        { nodes := [], entry_point := none })

/-! Claim theorems. -/

set_option maxRecDepth 10000

/-- The `GO_PANIC_SIMPLE` fixture of tests/test_parser.c. -/
def GO_PANIC_SIMPLE : List Char :=
  cs "panic: runtime error: index out of range [5] with length 3\n\ngoroutine 1 [running]:\nmain.processItems(0xc0000a6000, 0x3, 0x8)\n        /home/user/project/main.go:45 +0x1a3\nmain.handleRequest(0xc0000b2000)\n        /home/user/project/handlers.go:89 +0x85\nmain.main()\n        /home/user/project/main.go:23 +0x45\n"

/-- The `PYTHON_TRACE_SIMPLE` fixture of tests/test_parser.c. -/
def PYTHON_TRACE_SIMPLE : List Char :=
  cs "Traceback (most recent call last):\n  File \"/app/main.py\", line 42, in process_request\n    result = handler.execute(data)\n  File \"/app/handlers.py\", line 156, in execute\n    return self._run_query(query)\n  File \"/app/handlers.py\", line 203, in _run_query\n    cursor.execute(sql)\npsycopg2.errors.SyntaxError: syntax error at or near \"FROM\"\n"

/-- C1: evaluation of `tm_parse_stack_trace` on the Go panic fixture.
Language, `frames[0]` and the error message are as the claim states, but
the parser emits 8 frames rather than the 3 the repository's own test
asserts: each per-line iteration re-runs `regexec` over the whole
remaining text, so the first function/location pair is re-matched from
every earlier line position. -/
theorem c1_go_fixture_eval :
    (tm_parse_stack_trace (some GO_PANIC_SIMPLE)).map
        (fun t => (t.language, t.frames.length, t.frames.head?,
                   t.error_message.map (fun m => strstrB m (cs "index out of range")))) =
      some (tm_language.go, 8,
            some { function := some (cs "main.processItems"),
                   file := some (cs "/home/user/project/main.go"),
                   line := 45, column := 0, is_stdlib := false, is_third_party := false },
            some true) := by
  rfl

/-- C2: evaluation of `tm_parse_stack_trace` on the Python traceback
fixture.  Language and all three frames are as the claim states, but
`error_message` is NULL: the error regex requires a plain identifier
before `Error|Exception|Warning`, and `psycopg2.errors.SyntaxError:`
contains dots, so no error header ever matches — while the repository's
own test asserts a non-null message containing `SyntaxError`. -/
theorem c2_python_fixture_eval :
    (tm_parse_stack_trace (some PYTHON_TRACE_SIMPLE)).map
        (fun t => (t.language, t.frames.length,
                   t.frames.head?.map (fun f => (f.file, f.line, f.function)),
                   (t.frames.get? 2).map (fun f => (f.file, f.line, f.function)),
                   t.error_message)) =
      some (tm_language.python, 3,
            some (some (cs "/app/main.py"), 42, some (cs "process_request")),
            some (some (cs "/app/handlers.py"), 203, some (cs "_run_query")),
            none) := by
  rfl

/-- Format-detection rule exactly as claim C5 states it (for comparison
with the implementation): the keyword check is restricted to the first
line, and nothing requires the first line to be newline-terminated. -/
def detectFormatClaim (content : List Char) : tm_ifmt :=
  if content.isEmpty then .raw
  else
    let p := content.dropWhile (fun c => isPosixSpace c)
    if p.isEmpty then .raw
    else if charAt p 0 = '[' then .json_array
    else if charAt p 0 = lbrace then .json
    else
      let firstLine := lineOf p
      let tabs := firstLine.count '\t'
      let commas := firstLine.count ','
      let kw := strcasestrB firstLine (cs "timestamp") ||
                strcasestrB firstLine (cs "severity") ||
                strcasestrB firstLine (cs "message") ||
                strcasestrB firstLine (cs "textPayload")
      if (2 ≤ tabs || (0 < tabs && commas ≤ tabs)) && kw then .tsv
      else if 2 ≤ commas && kw then .csv
      else .raw

/-- C5 counterexample: the claim's rule disagrees with
`tm_detect_input_format` on two concrete inputs.  Without a newline the
code never classifies CSV/TSV (`memchr` for `\n` fails), and the
keyword search runs over the whole input rather than the first line. -/
theorem c5_counterexample :
    detectFormatClaim (cs "timestamp,severity,message") = tm_ifmt.csv ∧
    tm_detect_input_format (cs "timestamp,severity,message") = tm_ifmt.raw ∧
    detectFormatClaim (cs "a\tb\ntimestamp\n") = tm_ifmt.raw ∧
    tm_detect_input_format (cs "a\tb\ntimestamp\n") = tm_ifmt.tsv :=
  ⟨rfl, rfl, rfl, rfl⟩

/-- Header keywords of the CSV/TSV detection rule. -/
def headerKeywords : List (List Char) :=
  [cs "timestamp", cs "severity", cs "message", cs "textPayload"]

/-- Format-detection rule as amended: identical to the claim except that
(a) the CSV/TSV branches require the input after whitespace to contain a
newline, and (b) the case-insensitive keyword check searches the whole
input from the first non-whitespace byte, not only the first line. -/
def detectFormatAmended (content : List Char) : tm_ifmt :=
  match content.dropWhile (fun c => isPosixSpace c) with
  | [] => .raw
  | c :: rest =>
      if c = '[' then .json_array
      else if c = lbrace then .json
      else if (c :: rest).contains '\n' then
        let firstLine := (c :: rest).takeWhile (· ≠ '\n')
        let kw := headerKeywords.any (fun k => strcasestrB (c :: rest) k)
        if (2 ≤ firstLine.count '\t' ||
            (0 < firstLine.count '\t' && firstLine.count ',' ≤ firstLine.count '\t')) && kw then
          .tsv
        else if 2 ≤ firstLine.count ',' && kw then .csv
        else .raw
      else .raw

/-- C5 amended: `tm_detect_input_format` implements exactly the amended
rule, on every input. -/
theorem c5_detect_format_amended (content : List Char) :
    tm_detect_input_format content = detectFormatAmended content := by
  unfold tm_detect_input_format detectFormatAmended
  cases hp : content.dropWhile (fun c => isPosixSpace c) with
  | nil =>
      by_cases hc : content.isEmpty
      · simp [hc]
      · simp [hc, hp, List.isEmpty_iff]
  | cons c rest =>
      have hcne : ¬ content.isEmpty := by
        intro hable
        rw [List.isEmpty_iff] at hable
        subst hable
        simp at hp
      simp only [hcne, Bool.false_eq_true, if_false, hp]
      have hne : ¬ (c :: rest).isEmpty = true := by simp
      simp only [hne, Bool.false_eq_true, if_false]
      have hhead : charAt (c :: rest) 0 = c := rfl
      rw [hhead]
      by_cases h1 : c = '['
      · simp [h1]
      · simp only [h1, if_false]
        by_cases h2 : c = lbrace
        · simp [h2]
        · simp only [h2, if_false]
          by_cases h3 : '\n' ∈ (c :: rest)
          · simp only [List.contains, h3, if_pos, List.elem_eq_mem, decide_eq_true_eq]
            have hkw : (strcasestrB (c :: rest) (cs "timestamp") ||
                strcasestrB (c :: rest) (cs "severity") ||
                strcasestrB (c :: rest) (cs "message") ||
                strcasestrB (c :: rest) (cs "textPayload")) =
                headerKeywords.any (fun k => strcasestrB (c :: rest) k) := by
              simp [headerKeywords, List.any, Bool.or_assoc]
            simp only [lineOf, hkw]
          · simp [h3, lineOf]

/-- RFC4180-style quoting of a field body: every literal quote becomes a
doubled quote. -/
def csvQuoteEscape (s : List Char) : List Char :=
  s.flatMap (fun c => if c = '"' then ['"', '"'] else [c])

theorem csvQuoteEscape_nil : csvQuoteEscape [] = [] := rfl

theorem csvQuoteEscape_cons (c : Char) (s : List Char) :
    csvQuoteEscape (c :: s) = (if c = '"' then ['"', '"'] else [c]) ++ csvQuoteEscape s := by
  simp [csvQuoteEscape]

theorem parseQuotedCsv_escape (d : Char) (hd : d ≠ '"') (hr : d ≠ '\r')
    (s rest : List Char) :
    parseQuotedCsv d (csvQuoteEscape s ++ ['"'] ++ d :: rest) = (s, rest) := by
  induction s with
  | nil =>
      rw [csvQuoteEscape_nil]
      simp only [List.nil_append, List.cons_append, parseQuotedCsv]
      simp [hd, hr]
  | cons c cs' ih =>
      by_cases hc : c = '"'
      · subst hc
        rw [csvQuoteEscape_cons]
        simp only [if_pos rfl, List.cons_append, List.nil_append, List.append_assoc] at ih ⊢
        simp [parseQuotedCsv, ih]
      · rw [csvQuoteEscape_cons]
        simp only [if_neg hc, List.cons_append, List.nil_append, List.append_assoc] at ih ⊢
        rw [parseQuotedCsv.eq_def]
        simp [hc, ih]

/-- C8: the quote-aware CSV/TSV field splitter inverts RFC4180 quoting —
for every field body (which may embed the delimiter, quotes and
newlines), parsing the quoted-and-escaped form recovers the body exactly
and consumes the trailing delimiter; in particular the concrete field
`"a,b""c"` parses back to the literal `a,b"c`. -/
theorem c8_csv_quote_roundtrip :
    (∀ (d : Char), d ≠ '"' → d ≠ '\r' → ∀ (s rest : List Char),
        parse_csv_field (['"'] ++ csvQuoteEscape s ++ ['"'] ++ d :: rest) d =
          some (s, rest)) ∧
    parse_csv_field (cs "\"a,b\"\"c\"") ',' = some (cs "a,b\"c", []) := by
  constructor
  · intro d hd hr s rest
    have h := parseQuotedCsv_escape d hd hr s rest
    simp only [List.cons_append, List.nil_append, parse_csv_field]
    rw [h]
  · rfl

/-- C8 witness: the round-trip theorem applied at a concrete field
containing a comma, a quote and a newline. -/
theorem c8_csv_quote_roundtrip_witness :
    parse_csv_field (['"'] ++ csvQuoteEscape (cs "x\"y,\nz") ++ ['"'] ++ ',' :: cs "tail") ',' =
      some (cs "x\"y,\nz", cs "tail") :=
  c8_csv_quote_roundtrip.1 ',' (by decide) (by decide) (cs "x\"y,\nz") (cs "tail")

theorem tm_parse_python_trace_parse_iff (input : List Char) :
    (tm_parse_python_trace input).1 = tm_error.parse ↔
      (tm_parse_python_trace input).2.frames = [] := by
  simp only [tm_parse_python_trace]
  by_cases h : (pyFrameLoop (input.length + 1) input []).isEmpty
  · simp [h, List.isEmpty_iff.mp h]
  · have h' : (pyFrameLoop (input.length + 1) input []) ≠ [] := fun hh => h (List.isEmpty_iff.mpr hh)
    simp [h, h']

theorem tm_parse_go_trace_parse_iff (input : List Char) :
    (tm_parse_go_trace input).1 = tm_error.parse ↔
      (tm_parse_go_trace input).2.frames = [] := by
  simp only [tm_parse_go_trace]
  by_cases h : (goFrameLoop (input.length + 1) input none []).isEmpty
  · simp [h, List.isEmpty_iff.mp h]
  · have h' : (goFrameLoop (input.length + 1) input none []) ≠ [] := fun hh => h (List.isEmpty_iff.mpr hh)
    simp [h, h']

theorem tm_parse_nodejs_trace_parse_iff (input : List Char) :
    (tm_parse_nodejs_trace input).1 = tm_error.parse ↔
      (tm_parse_nodejs_trace input).2.frames = [] := by
  simp only [tm_parse_nodejs_trace]
  by_cases h : (nodeFrameLoop (input.length + 1) input []).isEmpty
  · simp [h, List.isEmpty_iff.mp h]
  · have h' : (nodeFrameLoop (input.length + 1) input []) ≠ [] := fun hh => h (List.isEmpty_iff.mpr hh)
    simp [h, h']

theorem tm_parse_python_trace_ok_frames (input : List Char)
    (h : (tm_parse_python_trace input).1 = tm_error.ok) :
    (tm_parse_python_trace input).2.frames ≠ [] := by
  intro hf
  have := (tm_parse_python_trace_parse_iff input).mpr hf
  rw [h] at this
  exact absurd this (by decide)

theorem tm_parse_go_trace_ok_frames (input : List Char)
    (h : (tm_parse_go_trace input).1 = tm_error.ok) :
    (tm_parse_go_trace input).2.frames ≠ [] := by
  intro hf
  have := (tm_parse_go_trace_parse_iff input).mpr hf
  rw [h] at this
  exact absurd this (by decide)

theorem tm_parse_nodejs_trace_ok_frames (input : List Char)
    (h : (tm_parse_nodejs_trace input).1 = tm_error.ok) :
    (tm_parse_nodejs_trace input).2.frames ≠ [] := by
  intro hf
  have := (tm_parse_nodejs_trace_parse_iff input).mpr hf
  rw [h] at this
  exact absurd this (by decide)

theorem tm_parse_trace_ok_frames (input : List Char) (t : tm_stack_trace)
    (h : tm_parse_trace input .unknown = (tm_error.ok, some t)) : t.frames ≠ [] := by
  simp only [tm_parse_trace] at h
  simp only [if_true] at h
  cases hd : tm_detect_language input <;> rw [hd] at h
  case unknown => simp at h
  case java => simp [tm_get_parserFn] at h
  case rust => simp [tm_get_parserFn] at h
  case cpp => simp [tm_get_parserFn] at h
  case python =>
      simp only [tm_get_parserFn] at h
      by_cases hok : (tm_parse_python_trace input).1 = tm_error.ok
      · rw [if_pos hok] at h
        simp only [show (tm_language.python = tm_language.unknown) = False by simp,
          if_false] at h
        have ht : t = (tm_parse_python_trace input).2 := by
          have := congrArg Prod.snd h
          simpa using this.symm
        rw [ht]
        exact tm_parse_python_trace_ok_frames input hok
      · rw [if_neg hok] at h
        simp at h
  case go =>
      simp only [tm_get_parserFn] at h
      by_cases hok : (tm_parse_go_trace input).1 = tm_error.ok
      · rw [if_pos hok] at h
        simp only [show (tm_language.go = tm_language.unknown) = False by simp,
          if_false] at h
        have ht : t = (tm_parse_go_trace input).2 := by
          have := congrArg Prod.snd h
          simpa using this.symm
        rw [ht]
        exact tm_parse_go_trace_ok_frames input hok
      · rw [if_neg hok] at h
        simp at h
  case nodejs =>
      simp only [tm_get_parserFn] at h
      by_cases hok : (tm_parse_nodejs_trace input).1 = tm_error.ok
      · rw [if_pos hok] at h
        simp only [show (tm_language.nodejs = tm_language.unknown) = False by simp,
          if_false] at h
        have ht : t = (tm_parse_nodejs_trace input).2 := by
          have := congrArg Prod.snd h
          simpa using this.symm
        rw [ht]
        exact tm_parse_nodejs_trace_ok_frames input hok
      · rw [if_neg hok] at h
        simp at h

theorem tm_parse_stack_trace_some_frames (input : List Char) (t : tm_stack_trace)
    (h : tm_parse_stack_trace (some input) = some t) : t.frames ≠ [] := by
  simp only [tm_parse_stack_trace] at h
  by_cases he : input.isEmpty
  · simp [he] at h
  · simp only [he, Bool.false_eq_true, if_false] at h
    rcases hpt : tm_parse_trace input .unknown with ⟨e, o⟩
    rw [hpt] at h
    cases e <;> cases o <;> simp_all
    exact tm_parse_trace_ok_frames input t (by rw [hpt])

/-- C7: each language parser reports `TM_ERR_PARSE` exactly when it
extracted zero frames, and the public entry point `tm_parse_stack_trace`
returns NULL for NULL input and zero-length input, and never returns a
trace with zero frames. -/
theorem c7_parse_failure_contract :
    (∀ input, (tm_parse_python_trace input).1 = tm_error.parse ↔
        (tm_parse_python_trace input).2.frames = []) ∧
    (∀ input, (tm_parse_go_trace input).1 = tm_error.parse ↔
        (tm_parse_go_trace input).2.frames = []) ∧
    (∀ input, (tm_parse_nodejs_trace input).1 = tm_error.parse ↔
        (tm_parse_nodejs_trace input).2.frames = []) ∧
    tm_parse_stack_trace none = none ∧
    (∀ input, input.isEmpty → tm_parse_stack_trace (some input) = none) ∧
    (∀ input t, tm_parse_stack_trace (some input) = some t → t.frames ≠ []) := by
  refine ⟨tm_parse_python_trace_parse_iff, tm_parse_go_trace_parse_iff,
    tm_parse_nodejs_trace_parse_iff, rfl, ?_, tm_parse_stack_trace_some_frames⟩
  intro input he
  simp [tm_parse_stack_trace, he]

/-- C7 witness: the contract applied at concrete inputs — the empty
input, and prose with no recognisable trace. -/
theorem c7_parse_failure_contract_witness :
    tm_parse_stack_trace (some []) = none ∧
    ((tm_parse_python_trace (cs "no frames here")).1 = tm_error.parse ↔
      (tm_parse_python_trace (cs "no frames here")).2.frames = []) ∧
    (tm_parse_stack_trace (some (cs "This is not a stack trace at all.\nJust random text.\n")) =
        none) :=
  ⟨c7_parse_failure_contract.2.2.2.2.1 [] (by decide),
   c7_parse_failure_contract.1 (cs "no frames here"),
   by rfl⟩

theorem pyErrScan_last (fuel : Nat) : ∀ (s : List Char) (acc : Option (List Char × List Char)),
    pyErrScan fuel s acc =
      match (pyErrList fuel s).getLast? with
      | some r => some r
      | none => acc := by
  induction fuel with
  | zero => intro s acc; rfl
  | succ fuel ih =>
      intro s acc
      simp only [pyErrScan, pyErrList]
      cases h : findPyErr (s.length + 1) s with
      | none => simp
      | some r =>
          obtain ⟨ty, msg, n⟩ := r
          dsimp only
          rw [ih]
          cases hL : pyErrList fuel (s.drop n) with
          | nil => simp
          | cons b t =>
              rw [List.getLast?_cons_cons]
              have hsome : (b :: t).getLast?.isSome := by
                rw [List.getLast?_isSome]
                simp
              obtain ⟨r', hr'⟩ := Option.isSome_iff_exists.mp hsome
              rw [hr']

theorem findGoPanic_head (fuel : Nat) : ∀ s,
    findGoPanic fuel s = (goPanicList fuel s).head? := by
  induction fuel with
  | zero => intro s; rfl
  | succ fuel ih =>
      intro s
      simp only [findGoPanic, goPanicList]
      by_cases hs : s.isEmpty
      · simp [hs]
      · simp only [hs, Bool.false_eq_true, if_false]
        cases h : goPanicLineMatch (lineOf s) with
        | some r => simp
        | none => simp [ih]

theorem findNodeErr_head (fuel : Nat) : ∀ s,
    findNodeErr fuel s = (nodeErrList fuel s).head? := by
  induction fuel with
  | zero => intro s; rfl
  | succ fuel ih =>
      intro s
      simp only [findNodeErr, nodeErrList]
      by_cases hs : s.isEmpty
      · simp [hs]
      · simp only [hs, Bool.false_eq_true, if_false]
        cases h : nodeErrLineMatch (lineOf s) with
        | some r => simp
        | none => simp [ih]

/-- C6: the Python parser populates `error_type`/`error_message` from
the LAST error-header match in the whole text (its scan loop overwrites
on every match), while the Go and Node.js parsers use only the FIRST
match of their header regexes and ignore all later ones. -/
theorem c6_error_header_first_vs_last (s : List Char) :
    ((tm_parse_python_trace s).2.error_type =
        ((pyErrList (s.length + 1) s).getLast?).map Prod.fst ∧
     (tm_parse_python_trace s).2.error_message =
        ((pyErrList (s.length + 1) s).getLast?).map Prod.snd) ∧
    ((tm_parse_go_trace s).2.error_type =
        ((goPanicList (s.length + 1) s).head?).map Prod.fst ∧
     (tm_parse_go_trace s).2.error_message =
        ((goPanicList (s.length + 1) s).head?).map Prod.snd) ∧
    ((tm_parse_nodejs_trace s).2.error_type =
        ((nodeErrList (s.length + 1) s).head?).map Prod.fst ∧
     (tm_parse_nodejs_trace s).2.error_message =
        ((nodeErrList (s.length + 1) s).head?).map Prod.snd) := by
  have hpy : pyErrScan (s.length + 1) s none = (pyErrList (s.length + 1) s).getLast? := by
    rw [pyErrScan_last]
    cases (pyErrList (s.length + 1) s).getLast? <;> simp
  refine ⟨⟨?_, ?_⟩, ⟨?_, ?_⟩, ⟨?_, ?_⟩⟩
  · simp [tm_parse_python_trace, hpy]
  · simp [tm_parse_python_trace, hpy]
  · simp [tm_parse_go_trace, findGoPanic_head]
  · simp [tm_parse_go_trace, findGoPanic_head]
  · simp [tm_parse_nodejs_trace, findNodeErr_head]
  · simp [tm_parse_nodejs_trace, findNodeErr_head]

/-- Suffixes of the input at each line start, paired with 1-based line
numbers, in input order (the cursor positions the parsing loop visits). -/
def suffixesFrom (fuel : Nat) (s : List Char) (n : Nat) : List (Nat × List Char) :=
  match fuel with
  | 0 => []
  | fuel + 1 =>
      if s.isEmpty then []
      else (n, s) :: suffixesFrom fuel (afterLine s) (n + 1)

/-- The structured parse attempted for one line by
`tm_parse_generic_log`'s format dispatch. -/
def genericStepParse (fmt : tm_log_format) (s : List Char) (len : Nat) :
    Option (Option (List Char) × Option (List Char) × List Char ×
            Option (List Char) × Option jval) :=
  match fmt with
  | .json_struct => parse_json_log_line s len
  | .syslog => (parse_syslog_line s len).map (fun r => (r.1, r.2.1, r.2.2.1, r.2.2.2, none))
  | _ => (parse_generic_line s len).map (fun r => (r.1, r.2.1, r.2.2.1, r.2.2.2, none))

/-- The single entry `tm_parse_generic_log` produces for one non-blank
line: the parsed fields on success, or the raw line as the message. -/
def genericStepEntry (fmt : tm_log_format) (s : List Char) (lineNum : Nat) :
    tm_generic_log_entry :=
  let len := strippedLen (lineOf s)
  match genericStepParse fmt s len with
  | some (ts, sev, msg, src, meta) =>
      { mkLogEntry ts sev msg src (some (s.take len)) lineNum with metadata := meta }
  | none => mkLogEntry none none (s.take len) none (some (s.take len)) lineNum

theorem genericStepEntry_line_number (fmt : tm_log_format) (s : List Char) (n : Nat) :
    (genericStepEntry fmt s n).line_number = n := by
  simp only [genericStepEntry]
  cases genericStepParse fmt s (strippedLen (lineOf s)) with
  | none => rfl
  | some r => obtain ⟨a, b, c, d, e⟩ := r; rfl

theorem genericLogStep_entries (fmt : tm_log_format) (s : List Char) (n : Nat)
    (log : tm_generic_log) :
    (genericLogStep fmt s n log).entries =
      log.entries ++ (if isBlankLine (lineOf s) then [] else [genericStepEntry fmt s n]) := by
  cases fmt with
  | json_struct =>
      by_cases hb : isBlankLine (lineOf s)
      · simp [genericLogStep, hb]
      · simp only [genericLogStep, hb, Bool.false_eq_true, if_false]
        simp only [genericStepEntry, genericStepParse]
        cases hp : parse_json_log_line s (strippedLen (lineOf s)) with
        | none => rfl
        | some r =>
            obtain ⟨ts, sev, msg, src, meta⟩ := r
            cases meta with
            | none => rfl
            | some m =>
                simp only [tm_generic_log_add_entry, List.getLast?_concat,
                  List.dropLast_concat]
  | syslog =>
      by_cases hb : isBlankLine (lineOf s)
      · simp [genericLogStep, hb]
      · simp only [genericLogStep, hb, Bool.false_eq_true, if_false]
        simp only [genericStepEntry, genericStepParse]
        cases hp : parse_syslog_line s (strippedLen (lineOf s)) with
        | none => rfl
        | some r => obtain ⟨ts, sev, msg, src⟩ := r; rfl
  | unknown =>
      by_cases hb : isBlankLine (lineOf s)
      · simp [genericLogStep, hb]
      · simp only [genericLogStep, hb, Bool.false_eq_true, if_false]
        simp only [genericStepEntry, genericStepParse]
        cases hp : parse_generic_line s (strippedLen (lineOf s)) with
        | none => rfl
        | some r => obtain ⟨ts, sev, msg, src⟩ := r; rfl
  | stacktrace =>
      by_cases hb : isBlankLine (lineOf s)
      · simp [genericLogStep, hb]
      · simp only [genericLogStep, hb, Bool.false_eq_true, if_false]
        simp only [genericStepEntry, genericStepParse]
        cases hp : parse_generic_line s (strippedLen (lineOf s)) with
        | none => rfl
        | some r => obtain ⟨ts, sev, msg, src⟩ := r; rfl
  | nginx =>
      by_cases hb : isBlankLine (lineOf s)
      · simp [genericLogStep, hb]
      · simp only [genericLogStep, hb, Bool.false_eq_true, if_false]
        simp only [genericStepEntry, genericStepParse]
        cases hp : parse_generic_line s (strippedLen (lineOf s)) with
        | none => rfl
        | some r => obtain ⟨ts, sev, msg, src⟩ := r; rfl
  | apache =>
      by_cases hb : isBlankLine (lineOf s)
      · simp [genericLogStep, hb]
      · simp only [genericLogStep, hb, Bool.false_eq_true, if_false]
        simp only [genericStepEntry, genericStepParse]
        cases hp : parse_generic_line s (strippedLen (lineOf s)) with
        | none => rfl
        | some r => obtain ⟨ts, sev, msg, src⟩ := r; rfl
  | docker =>
      by_cases hb : isBlankLine (lineOf s)
      · simp [genericLogStep, hb]
      · simp only [genericLogStep, hb, Bool.false_eq_true, if_false]
        simp only [genericStepEntry, genericStepParse]
        cases hp : parse_generic_line s (strippedLen (lineOf s)) with
        | none => rfl
        | some r => obtain ⟨ts, sev, msg, src⟩ := r; rfl
  | kubernetes =>
      by_cases hb : isBlankLine (lineOf s)
      · simp [genericLogStep, hb]
      · simp only [genericLogStep, hb, Bool.false_eq_true, if_false]
        simp only [genericStepEntry, genericStepParse]
        cases hp : parse_generic_line s (strippedLen (lineOf s)) with
        | none => rfl
        | some r => obtain ⟨ts, sev, msg, src⟩ := r; rfl
  | custom =>
      by_cases hb : isBlankLine (lineOf s)
      · simp [genericLogStep, hb]
      · simp only [genericLogStep, hb, Bool.false_eq_true, if_false]
        simp only [genericStepEntry, genericStepParse]
        cases hp : parse_generic_line s (strippedLen (lineOf s)) with
        | none => rfl
        | some r => obtain ⟨ts, sev, msg, src⟩ := r; rfl

theorem genericLogLoop_entries (fmt : tm_log_format) (fuel : Nat) :
    ∀ (s : List Char) (n : Nat) (log : tm_generic_log),
    (genericLogLoop fuel fmt s n log).entries =
      log.entries ++
        ((suffixesFrom fuel s n).filter (fun p => !isBlankLine (lineOf p.2))).map
          (fun p => genericStepEntry fmt p.2 p.1) := by
  induction fuel with
  | zero => intro s n log; simp [genericLogLoop, suffixesFrom]
  | succ fuel ih =>
      intro s n log
      simp only [genericLogLoop, suffixesFrom]
      by_cases hs : s.isEmpty
      · simp [hs]
      · simp only [hs, Bool.false_eq_true, if_false]
        rw [ih, genericLogStep_entries]
        by_cases hb : isBlankLine (lineOf s)
        · simp [hb, List.filter_cons]
        · simp [hb, List.filter_cons]

/-- C3: `tm_parse_generic_log` produces exactly one entry per non-blank
input line (blank meaning empty or a lone carriage return), in input
order — the entry list is precisely the per-line map over the non-blank
line positions, so the entry count equals the non-blank line count, the
line numbers appear in input order, and a line whose structured parse
fails still becomes an entry whose message is the raw (CR-stripped)
line. -/
theorem c3_generic_log_no_line_dropped (content : List Char) (h : content ≠ []) :
    ∃ log, tm_parse_generic_log content .unknown = some log ∧
      log.entries =
        ((suffixesFrom (content.length + 1) content 1).filter
            (fun p => !isBlankLine (lineOf p.2))).map
          (fun p => genericStepEntry (tm_detect_log_format content) p.2 p.1) ∧
      log.entries.length =
        ((suffixesFrom (content.length + 1) content 1).filter
            (fun p => !isBlankLine (lineOf p.2))).length ∧
      log.entries.map (fun e => e.line_number) =
        ((suffixesFrom (content.length + 1) content 1).filter
            (fun p => !isBlankLine (lineOf p.2))).map Prod.fst ∧
      (∀ fmt s n, genericStepParse fmt s (strippedLen (lineOf s)) = none →
        (genericStepEntry fmt s n).message = s.take (strippedLen (lineOf s))) := by
  have hne : ¬ content.isEmpty := by simpa [List.isEmpty_iff] using h
  have hloop := genericLogLoop_entries (tm_detect_log_format content)
      (content.length + 1) content 1
      { tm_generic_log_new with
        detected_format := tm_detect_log_format content
        format_description := some (tm_log_format_name (tm_detect_log_format content)) }
  refine ⟨genericLogLoop (content.length + 1) (tm_detect_log_format content) content 1
      { tm_generic_log_new with
        detected_format := tm_detect_log_format content
        format_description := some (tm_log_format_name (tm_detect_log_format content)) },
      ?_, ?_, ?_, ?_, ?_⟩
  · simp only [tm_parse_generic_log, hne, Bool.false_eq_true, if_false, if_true]
  · simpa [tm_generic_log_new] using hloop
  · rw [hloop]
    simp [tm_generic_log_new]
  · rw [hloop]
    simp [tm_generic_log_new, genericStepEntry_line_number]
  · intro fmt s n hp
    simp only [genericStepEntry, hp]
    rfl

/-- C3 witness: the theorem applied at a concrete three-line input with
one blank line. -/
theorem c3_generic_log_no_line_dropped_witness :
    ∃ log, tm_parse_generic_log (cs "a\n\nb") .unknown = some log ∧
      log.entries =
        ((suffixesFrom ((cs "a\n\nb").length + 1) (cs "a\n\nb") 1).filter
            (fun p => !isBlankLine (lineOf p.2))).map
          (fun p => genericStepEntry (tm_detect_log_format (cs "a\n\nb")) p.2 p.1) ∧
      log.entries.length =
        ((suffixesFrom ((cs "a\n\nb").length + 1) (cs "a\n\nb") 1).filter
            (fun p => !isBlankLine (lineOf p.2))).length ∧
      log.entries.map (fun e => e.line_number) =
        ((suffixesFrom ((cs "a\n\nb").length + 1) (cs "a\n\nb") 1).filter
            (fun p => !isBlankLine (lineOf p.2))).map Prod.fst ∧
      (∀ fmt s n, genericStepParse fmt s (strippedLen (lineOf s)) = none →
        (genericStepEntry fmt s n).message = s.take (strippedLen (lineOf s))) :=
  c3_generic_log_no_line_dropped (cs "a\n\nb") (by decide)

theorem extractOrRaw_isSome (content : List Char) (e : Option (List tm_log_entry)) :
    (extractOrRaw content e).isSome = true := by
  cases e with
  | none => rfl
  | some l => cases l <;> rfl

/-- C10: for every non-empty input, `tm_extract_stack_traces` never
returns NULL — RAW input is returned verbatim, and when structured
JSON/CSV/TSV extraction finds no trace-bearing entries the whole input
is returned verbatim instead of reporting failure. -/
theorem c10_extract_never_null (content : List Char) (h : content ≠ []) :
    (tm_extract_stack_traces content .auto).isSome = true ∧
    (tm_detect_input_format content = tm_ifmt.raw →
        tm_extract_stack_traces content .auto = some content) ∧
    ((tm_detect_input_format content = tm_ifmt.json ∨
      tm_detect_input_format content = tm_ifmt.json_array) →
        tm_extract_from_json_array content = none →
        tm_extract_from_json content = none →
        tm_extract_stack_traces content .auto = some content) ∧
    (tm_detect_input_format content = tm_ifmt.csv →
        tm_extract_from_csv content ',' = none →
        tm_extract_stack_traces content .auto = some content) ∧
    (tm_detect_input_format content = tm_ifmt.tsv →
        tm_extract_from_csv content '\t' = none →
        tm_extract_stack_traces content .auto = some content) := by
  have hne : ¬ content.isEmpty := by simpa [List.isEmpty_iff] using h
  refine ⟨?_, ?_, ?_, ?_, ?_⟩
  · simp only [tm_extract_stack_traces, hne, Bool.false_eq_true, if_false, if_true]
    cases hd : tm_detect_input_format content <;>
      simp [extractOrRaw_isSome]
  · intro hd
    simp only [tm_extract_stack_traces, hne, Bool.false_eq_true, if_false, if_true]
    rw [hd]
  · intro hdisj hna hnj
    simp only [tm_extract_stack_traces, hne, Bool.false_eq_true, if_false, if_true]
    rcases hdisj with hd | hd <;> rw [hd] <;>
      by_cases hbr : charAt (content.dropWhile
          (fun c => c = ' ' || c = '\t' || c = '\n' || c = '\r')) 0 = '[' <;>
        simp [hbr, hna, hnj, extractOrRaw]
  · intro hd hn
    simp only [tm_extract_stack_traces, hne, Bool.false_eq_true, if_false, if_true]
    rw [hd]
    simp [hn, extractOrRaw]
  · intro hd hn
    simp only [tm_extract_stack_traces, hne, Bool.false_eq_true, if_false, if_true]
    rw [hd]
    simp [hn, extractOrRaw]

/-- C10 witness: prose input (detected RAW) is returned verbatim, and a
CSV-looking header with no trace-bearing rows falls back to a verbatim
copy. -/
theorem c10_extract_never_null_witness :
    tm_extract_stack_traces (cs "hello\nworld\n") .auto = some (cs "hello\nworld\n") ∧
    tm_extract_stack_traces (cs "timestamp,severity,message\n1,ERROR,nothing\n") .auto =
      some (cs "timestamp,severity,message\n1,ERROR,nothing\n") :=
  ⟨(c10_extract_never_null (cs "hello\nworld\n") (by decide)).2.1 (by rfl),
   (c10_extract_never_null (cs "timestamp,severity,message\n1,ERROR,nothing\n")
      (by decide)).2.2.2.1 (by rfl) (by rfl)⟩

theorem tm_parse_generic_log_some (content : List Char) (hne : ¬ content.isEmpty = true) :
    tm_parse_generic_log content .unknown =
      some (genericLogLoop (content.length + 1) (tm_detect_log_format content) content 1
        { tm_generic_log_new with
          detected_format := tm_detect_log_format content
          format_description := some (tm_log_format_name (tm_detect_log_format content)) }) := by
  simp only [tm_parse_generic_log, hne, Bool.false_eq_true, if_false, if_true]

/-- C4: for every non-empty input, a successful `tm_unified_parse`
returns exactly one of the stack trace and the generic log, tagged with
the mode actually used; when stack-trace mode was detected but trace
parsing produced nothing, the call is downgraded to generic-log mode
instead of failing; and a parse error occurs only when the generic log
has zero entries, with both outputs NULL. -/
theorem c4_unified_parse_contract (content : List Char) (h : content ≠ []) :
    (∀ m t l, tm_unified_parse content = (tm_error.ok, m, t, l) →
        (m = tm_analysis_mode.stack_trace ∧ t.isSome = true ∧ l = none) ∨
        (m = tm_analysis_mode.generic_log ∧ t = none ∧ l.isSome = true)) ∧
    (∀ e m t l, tm_unified_parse content = (e, m, t, l) → e ≠ tm_error.ok →
        e = tm_error.parse ∧ m = tm_analysis_mode.generic_log ∧ t = none ∧ l = none ∧
        ∃ log, tm_parse_generic_log content .unknown = some log ∧ log.entries = []) ∧
    (tm_detect_analysis_mode content = tm_analysis_mode.stack_trace →
     (match tm_extract_stack_traces content .auto with
      | some extracted => tm_parse_stack_trace (some extracted)
      | none => none) = none →
     (tm_unified_parse content).2.1 = tm_analysis_mode.generic_log ∧
     (tm_unified_parse content).2.2.1 = none) := by
  have hne : ¬ content.isEmpty := by simpa [List.isEmpty_iff] using h
  have hgl := tm_parse_generic_log_some content hne
  refine ⟨?_, ?_, ?_⟩
  · intro m t l heq
    simp only [tm_unified_parse, hne, Bool.false_eq_true, if_false] at heq
    split at heq
    · simp only [Prod.mk.injEq] at heq
      exact Or.inl ⟨heq.2.1.symm, by rw [← heq.2.2.1]; rfl, heq.2.2.2.symm⟩
    · rw [hgl] at heq
      simp only [] at heq
      split at heq
      · simp at heq
      · simp only [Prod.mk.injEq] at heq
        exact Or.inr ⟨heq.2.1.symm, heq.2.2.1.symm, by rw [← heq.2.2.2]; rfl⟩
  · intro e m t l heq hnok
    simp only [tm_unified_parse, hne, Bool.false_eq_true, if_false] at heq
    split at heq
    · simp only [Prod.mk.injEq] at heq
      exact absurd heq.1.symm hnok
    · rw [hgl] at heq
      simp only [] at heq
      split at heq
      next hempty =>
        simp only [Prod.mk.injEq] at heq
        refine ⟨heq.1.symm, heq.2.1.symm, heq.2.2.1.symm, heq.2.2.2.symm, _, hgl, ?_⟩
        exact List.isEmpty_iff.mp hempty
      next hempty =>
        simp only [Prod.mk.injEq] at heq
        exact absurd heq.1.symm hnok
  · intro hmode hfail
    simp only [tm_unified_parse, hne, Bool.false_eq_true, if_false, hmode, if_true, if_pos rfl]
    rw [hfail, hgl]
    simp only []
    split
    · exact ⟨rfl, rfl⟩
    · exact ⟨rfl, rfl⟩

/-- C4 witness: the contract applied to a concrete input that contains
stack-trace patterns (a bare `panic:` line) whose trace parse yields no
frames, exercising the downgrade path. -/
theorem c4_unified_parse_contract_witness :
    (tm_unified_parse (cs "panic: boom with no frames\n")).2.1 =
        tm_analysis_mode.generic_log ∧
    (tm_unified_parse (cs "panic: boom with no frames\n")).2.2.1 = none :=
  (c4_unified_parse_contract (cs "panic: boom with no frames\n") (by decide)).2.2
    (by rfl) (by rfl)

/-- Identity-relevant core of a call node: everything except the
caller/callee links and complexity (which linking mutates). -/
def nodeCore (n : tm_call_node) : List Char × List Char × Nat × Nat × List Char :=
  (n.name, n.file, n.start_line, n.end_line, n.signature)

theorem map_core_set (l : List tm_call_node) (i : Nat) (n' : tm_call_node)
    (h : ∀ n, l.get? i = some n → nodeCore n' = nodeCore n) :
    (l.set i n').map nodeCore = l.map nodeCore := by
  induction l generalizing i with
  | nil => simp
  | cons x t ih =>
      cases i with
      | zero =>
          simp only [List.set, List.map_cons, List.cons.injEq]
          exact ⟨h x rfl, trivial⟩
      | succ j =>
          simp only [List.set, List.map_cons, List.cons.injEq]
          exact ⟨trivial, ih j (fun n hn => h n (by simpa using hn))⟩

theorem graphAddNode_core (g : tm_call_graph) (i : Nat) (func : tm_function_def)
    (file : List Char) :
    (graphAddNode g i func file).nodes.map nodeCore =
      g.nodes.map nodeCore ++ [nodeCore (mkCallNode func file)] := by
  simp only [graphAddNode]
  split
  · split
    · next prev hprev =>
        split
        · next nd hnd =>
            rw [map_core_set _ _ _ (fun n hn => by rw [hnd] at hn; cases hn; rfl)]
            rw [map_core_set _ _ _ (fun n hn => by rw [hprev] at hn; cases hn; rfl)]
            simp
        · rw [map_core_set _ _ _ (fun n hn => by rw [hprev] at hn; cases hn; rfl)]
          simp
    · simp
  · simp

theorem graphAddNode_entry (g : tm_call_graph) (i : Nat) (func : tm_function_def)
    (file : List Char) :
    (graphAddNode g i func file).entry_point =
      if i = 0 || g.entry_point.isNone then some g.nodes.length else g.entry_point := rfl

theorem graphAddNode_ne_nil (g : tm_call_graph) (i : Nat) (func : tm_function_def)
    (file : List Char) : (graphAddNode g i func file).nodes ≠ [] := by
  intro hnil
  have := graphAddNode_core g i func file
  rw [hnil] at this
  simp at this

theorem graphBuildLoop_spec (fs : List Char → Option tm_source_file) (incl : Bool)
    (repo : List Char) :
    ∀ (l : List tm_stack_frame) (k : Nat) (g : tm_call_graph),
      g.entry_point = (if g.nodes.isEmpty then none else some 0) →
      (¬ g.nodes.isEmpty = true → 1 ≤ k) →
      (graphBuildLoop fs incl repo (l.enumFrom k) g).nodes.map nodeCore =
        g.nodes.map nodeCore ++
          (l.filterMap (resolveFrame fs incl repo)).map
            (fun p => nodeCore (mkCallNode p.1 p.2)) ∧
      (graphBuildLoop fs incl repo (l.enumFrom k) g).entry_point =
        (if (graphBuildLoop fs incl repo (l.enumFrom k) g).nodes.isEmpty then none
         else some 0) := by
  intro l
  induction l with
  | nil =>
      intro k g hinv hk
      simp only [List.enumFrom, graphBuildLoop, List.filterMap_nil, List.map_nil,
        List.append_nil]
      exact ⟨trivial, hinv⟩
  | cons fr rest ih =>
      intro k g hinv hk
      cases hres : resolveFrame fs incl repo fr with
      | none =>
          have := ih (k + 1) g hinv (fun _ => by omega)
          simp only [List.enumFrom, graphBuildLoop, hres]
          simpa [List.filterMap_cons, hres] using this
      | some p =>
          obtain ⟨func, file⟩ := p
          have hinv' : (graphAddNode g k func file).entry_point =
              (if (graphAddNode g k func file).nodes.isEmpty then none else some 0) := by
            have hne := graphAddNode_ne_nil g k func file
            rw [graphAddNode_entry,
              if_neg (show ¬(graphAddNode g k func file).nodes.isEmpty = true by
                simpa [List.isEmpty_iff] using hne)]
            by_cases hg : g.nodes.isEmpty
            · rw [hinv, if_pos hg]
              simp [List.isEmpty_iff.mp hg]
            · rw [hinv, if_neg hg]
              have hk1 := hk (by simpa using hg)
              have hkne : k ≠ 0 := by omega
              simp [hkne]
          have hrec := ih (k + 1) (graphAddNode g k func file) hinv' (fun _ => by omega)
          simp only [List.enumFrom, graphBuildLoop, hres]
          refine ⟨?_, hrec.2⟩
          rw [hrec.1, graphAddNode_core]
          simp [List.filterMap_cons, hres]

theorem filterMap_head_findSome {α β : Type} (f : α → Option β) (l : List α) :
    (l.filterMap f).head? = l.findSome? f := by
  induction l with
  | nil => rfl
  | cons x t ih =>
      cases h : f x with
      | none => simpa [List.filterMap_cons, h, List.findSome?_cons] using ih
      | some b => simp [List.filterMap_cons, h, List.findSome?_cons]

/-- C9: for every environment (file system / syntax trees), repository
root and stack trace, the call-graph builder returns `TM_OK`; its nodes
are exactly the resolved frames in order; an input on which no frame
resolves yields a graph with zero nodes (still `TM_OK`); and whenever at
least one frame resolves, the node built for the first resolved frame is
the graph's entry point. -/
theorem c9_graph_builder (fs : List Char → Option tm_source_file) (incl : Bool)
    (repo : List Char) (trace : tm_stack_trace) :
    (∃ g, tm_graph_builder_build fs incl repo trace = .ok g) ∧
    ∀ g, tm_graph_builder_build fs incl repo trace = .ok g →
      g.nodes.map nodeCore =
        (trace.frames.filterMap (resolveFrame fs incl repo)).map
          (fun p => nodeCore (mkCallNode p.1 p.2)) ∧
      g.entry_point = (if g.nodes.isEmpty then none else some 0) ∧
      ((∀ fr ∈ trace.frames, resolveFrame fs incl repo fr = none) → g.nodes = []) ∧
      (∀ p, trace.frames.findSome? (resolveFrame fs incl repo) = some p →
        g.nodes.head?.map nodeCore = some (nodeCore (mkCallNode p.1 p.2)) ∧
        g.entry_point = some 0) := by
  have hspec := graphBuildLoop_spec fs incl repo trace.frames 0
      { nodes := [], entry_point := none } (by simp) (by simp)
  have henum : trace.frames.enum = trace.frames.enumFrom 0 := rfl
  refine ⟨⟨_, rfl⟩, ?_⟩
  intro g hg
  have hgeq : g = graphBuildLoop fs incl repo (trace.frames.enumFrom 0)
      { nodes := [], entry_point := none } := by
    simpa [tm_graph_builder_build, henum] using hg.symm
  subst hgeq
  obtain ⟨hcore, hentry⟩ := hspec
  simp only [List.map_nil, List.nil_append] at hcore
  refine ⟨hcore, hentry, ?_, ?_⟩
  · intro hall
    have hfm : trace.frames.filterMap (resolveFrame fs incl repo) = [] :=
      List.filterMap_eq_nil_iff.mpr hall
    rw [hfm] at hcore
    simpa using hcore
  · intro p hp
    have hhead : (trace.frames.filterMap (resolveFrame fs incl repo)).head? = some p := by
      rw [filterMap_head_findSome]
      exact hp
    constructor
    · rw [← List.head?_map, hcore, List.head?_map, hhead]
      rfl
    · have hne : (graphBuildLoop fs incl repo (trace.frames.enumFrom 0)
          { nodes := [], entry_point := none }).nodes ≠ [] := by
        intro hnil
        rw [hnil] at hcore
        simp only [List.map_nil] at hcore
        have hfm : trace.frames.filterMap (resolveFrame fs incl repo) = [] :=
          List.map_eq_nil_iff.mp hcore.symm
        rw [hfm] at hhead
        simp at hhead
      rw [hentry, if_neg (by simpa [List.isEmpty_iff] using hne)]

/-- C9 witness: the builder applied with an environment resolving no
file and an empty frame list succeeds with a zero-node graph, and with
an environment resolving one frame the entry point is that frame's
node. -/
theorem c9_graph_builder_witness :
    (∃ g, tm_graph_builder_build (fun _ => none) false (cs "/repo")
        { language := tm_language.go, error_type := none, error_message := none,
          frames := [], raw_trace := none } = .ok g ∧ g.nodes = []) := by
  obtain ⟨⟨g, hg⟩, hall⟩ := c9_graph_builder (fun _ => none) false (cs "/repo")
    { language := tm_language.go, error_type := none, error_message := none,
      frames := [], raw_trace := none }
  exact ⟨g, hg, (hall g hg).2.2.1 (by intro fr hfr; cases hfr)⟩

end TraceMind
